import Mathlib

/-!
Shallow embedding of the `localhost` HTTP server (Rust) for specification
checking.  Bytes are modelled as `Nat` (values `< 256`), Rust `String`s as
`List Char` (Rust `str::find`/slicing at a char boundary agrees with the
char-level split, so byte indices and char indices coincide for every split
the source performs).  `HashMap` fields are modelled as association lists
with replace-on-insert semantics (one admissible iteration order).
All definitions are computable and structurally recursive so that concrete
witnesses evaluate inside the kernel.
-/

namespace Localhost

/-- Rust `String` / `str` values. -/
abbrev Str := List Char

/-- Rust `Vec<u8>` / `&[u8]` values: each entry is a byte value `< 256`. -/
abbrev Bytes := List Nat

/- ---------------------------------------------------------------------
   Generic string / slice helpers used throughout the source.
--------------------------------------------------------------------- -/

/-- Auxiliary scan for `findSeq`, carrying the current index. -/
def findSeqAux {α : Type} [DecidableEq α] (pat : List α) : List α → Nat → Option Nat
  | [], i => if pat.isPrefixOf ([] : List α) then some i else none
  | b :: t, i => if pat.isPrefixOf (b :: t) then some i else findSeqAux pat t (i + 1)

/-- `buffer.windows(pat.len()).position(|w| w == pat)`: index of the first
occurrence of `pat` as a contiguous sub-slice (`HttpRequestParser::find_sequence`,
also `str::find(&str)` used by the CGI output parser). -/
def findSeq {α : Type} [DecidableEq α] (buf pat : List α) : Option Nat :=
  findSeqAux pat buf 0

/-- Rust `char::is_whitespace` restricted to the ASCII whitespace the HTTP
grammar can contain. -/
def isWs (c : Char) : Bool :=
  c = ' ' || c = '\t' || c = '\n' || c = '\r'

/-- Rust `char::to_ascii_lowercase`-style fold used by `to_lowercase` on the
ASCII header/method data the server manipulates. -/
def charLower (c : Char) : Char :=
  if 'A' ≤ c ∧ c ≤ 'Z' then Char.ofNat (c.toNat + 32) else c

/-- Rust `char` uppercasing on ASCII (method names are ASCII). -/
def charUpper (c : Char) : Char :=
  if 'a' ≤ c ∧ c ≤ 'z' then Char.ofNat (c.toNat - 32) else c

/-- Rust `str::to_lowercase` (ASCII fragment). -/
def strLower (s : Str) : Str := s.map charLower

/-- Rust `str::to_uppercase` (ASCII fragment). -/
def strUpper (s : Str) : Str := s.map charUpper

/-- Rust `str::trim` (ASCII whitespace fragment). -/
def strTrim (s : Str) : Str :=
  ((s.dropWhile isWs).reverse.dropWhile isWs).reverse

/-- Rust `str::split(c)`: split at every occurrence of `c`, keeping empty
segments (`"".split(c)` yields one empty segment). -/
def splitOnChar (c : Char) (s : Str) : List Str :=
  s.foldr
    (fun ch acc =>
      if ch = c then [] :: acc
      else
        match acc with
        | [] => [[ch]]
        | h :: t => (ch :: h) :: t)
    [[]]

/-- Rust `str::split_whitespace`: non-empty maximal runs of non-whitespace. -/
def splitWhitespace (s : Str) : List Str :=
  (s.foldr
    (fun ch acc =>
      if isWs ch then [] :: acc
      else
        match acc with
        | [] => [[ch]]
        | h :: t => (ch :: h) :: t)
    [[]]).filter (fun seg => seg ≠ [])

/-- Strip at most one trailing `'\r'` (the `str::lines` contract). -/
def stripTrailingCr (s : Str) : Str :=
  match s.reverse with
  | '\r' :: rest => rest.reverse
  | _ => s

/-- Rust `str::lines`: split on `'\n'`, a final line ending is optional, and
each line loses at most one trailing `'\r'`. -/
def strLines (s : Str) : List Str :=
  if s = [] then []
  else
    let segs := splitOnChar '\n' s
    let segs := if s.getLast? = some '\n' then segs.dropLast else segs
    segs.map stripTrailingCr

/-- Rust `str::find(char)`: index of the first occurrence. -/
def charIndexOf (c : Char) (s : Str) : Option Nat :=
  findSeq s [c]

/-- Rust `str::contains(&str)`. -/
def strContains (s sub : Str) : Bool :=
  (findSeq s sub).isSome

/-- Rust `str::starts_with(&str)`. -/
def strStartsWith (s p : Str) : Bool :=
  p.isPrefixOf s

/-- Rust `str::ends_with(char)`. -/
def strEndsWithChar (s : Str) (c : Char) : Bool :=
  s.getLast? = some c

/-- ASCII hex digit test (`u8::from_str_radix` digit validity, radix 16). -/
def isHexDigit (c : Char) : Bool :=
  ('0' ≤ c ∧ c ≤ '9') || ('a' ≤ c ∧ c ≤ 'f') || ('A' ≤ c ∧ c ≤ 'F')

/-- Value of an ASCII hex digit. -/
def hexVal (c : Char) : Nat :=
  if '0' ≤ c ∧ c ≤ '9' then c.toNat - '0'.toNat
  else if 'a' ≤ c ∧ c ≤ 'f' then c.toNat - 'a'.toNat + 10
  else if 'A' ≤ c ∧ c ≤ 'F' then c.toNat - 'A'.toNat + 10
  else 0

/-- Rust `u8::from_str_radix(s, 16)` on the two-character escape string the
URL decoder builds.  Rust's integer parser accepts a leading sign: `"+H"`
parses as `H`, and `"-0"` parses as `0` (any other `-` input under- or
overflows and fails). -/
def fromStrRadix16 (c1 c2 : Char) : Option Nat :=
  if c1 = '+' then (if isHexDigit c2 then some (hexVal c2) else none)
  else if c1 = '-' then (if c2 = '0' then some 0 else none)
  else if isHexDigit c1 ∧ isHexDigit c2 then some (hexVal c1 * 16 + hexVal c2)
  else none

/-- Digit run value for `parseUsize`. -/
def digitsVal (s : Str) : Option Nat :=
  if s ≠ [] ∧ s.all (fun c => '0' ≤ c ∧ c ≤ '9') then
    some (s.foldl (fun acc c => acc * 10 + (c.toNat - '0'.toNat)) 0)
  else none

/-- Rust `str::parse::<usize>()`: optional sign, then decimal digits; values
`≥ 2^64` overflow on a 64-bit host and fail; `-0…0` parses as `0`. -/
def parseUsize (s : Str) : Option Nat :=
  let core :=
    match s with
    | '+' :: rest => digitsVal rest
    | '-' :: rest => if rest ≠ [] ∧ rest.all (fun c => c = '0') then some 0 else none
    | _ => digitsVal s
  match core with
  | some v => if v < 2 ^ 64 then some v else none
  | none => none

/-- `str::from_utf8` / the UTF-8 decoding of a byte region into chars.
Returns `none` exactly on invalid UTF-8 (overlongs, surrogates, bad
continuations), following the standard validity table. -/
def utf8Decode : Bytes → Option Str
  | [] => some []
  | b1 :: rest =>
    if b1 < 0x80 then (utf8Decode rest).map (fun cs => Char.ofNat b1 :: cs)
    else if b1 < 0xC2 then none
    else if b1 < 0xE0 then
      match rest with
      | b2 :: rest2 =>
        if 0x80 ≤ b2 ∧ b2 < 0xC0 then
          (utf8Decode rest2).map (fun cs => Char.ofNat ((b1 - 0xC0) * 64 + (b2 - 0x80)) :: cs)
        else none
      | [] => none
    else if b1 < 0xF0 then
      match rest with
      | b2 :: b3 :: rest3 =>
        let lo2 := if b1 = 0xE0 then 0xA0 else 0x80
        let hi2 := if b1 = 0xED then 0xA0 else 0xC0
        if (lo2 ≤ b2 ∧ b2 < hi2) ∧ (0x80 ≤ b3 ∧ b3 < 0xC0) then
          (utf8Decode rest3).map
            (fun cs => Char.ofNat ((b1 - 0xE0) * 4096 + (b2 - 0x80) * 64 + (b3 - 0x80)) :: cs)
        else none
      | _ => none
    else if b1 < 0xF5 then
      match rest with
      | b2 :: b3 :: b4 :: rest4 =>
        let lo2 := if b1 = 0xF0 then 0x90 else 0x80
        let hi2 := if b1 = 0xF4 then 0x90 else 0xC0
        if (lo2 ≤ b2 ∧ b2 < hi2) ∧ (0x80 ≤ b3 ∧ b3 < 0xC0) ∧ (0x80 ≤ b4 ∧ b4 < 0xC0) then
          (utf8Decode rest4).map
            (fun cs =>
              Char.ofNat ((b1 - 0xF0) * 262144 + (b2 - 0x80) * 4096 +
                (b3 - 0x80) * 64 + (b4 - 0x80)) :: cs)
        else none
      | _ => none
    else none

/-- Association-list model of `HashMap<String, String>::insert`: replace the
value when the key is present, append otherwise. -/
def mapInsert (m : List (Str × Str)) (k v : Str) : List (Str × Str) :=
  if m.any (fun p => p.1 = k) then
    m.map (fun p => if p.1 = k then (k, v) else p)
  else m ++ [(k, v)]

/-- Association-list lookup, first match. -/
def mapFind (m : List (Str × Str)) (k : Str) : Option Str :=
  (m.find? (fun p => p.1 = k)).map (fun p => p.2)

/- ---------------------------------------------------------------------
   src/error/mod.rs — error taxonomy and status codes.
   (`ServerError::Io` carries a `std::io::Error`; the pure request path
   never constructs it, so its payload is dropped here.)
--------------------------------------------------------------------- -/

/-- `ServerError` (src/error/mod.rs). -/
inductive ServerError : Type
  | Config (msg : Str)
  | Io
  | Http (msg : Str)
  | Cgi (msg : Str)
  | Internal (msg : Str)
deriving Repr, DecidableEq

/-- `HttpStatus` (src/error/mod.rs). -/
inductive HttpStatus : Type
  | Ok | Created | NoContent | MovedPermanently | Found
  | BadRequest | Forbidden | NotFound | MethodNotAllowed
  | RequestEntityTooLarge | InternalServerError
deriving Repr, DecidableEq

/-- `HttpStatus::as_u16`. -/
def HttpStatus.asU16 : HttpStatus → Nat
  | .Ok => 200 | .Created => 201 | .NoContent => 204
  | .MovedPermanently => 301 | .Found => 302
  | .BadRequest => 400 | .Forbidden => 403 | .NotFound => 404
  | .MethodNotAllowed => 405 | .RequestEntityTooLarge => 413
  | .InternalServerError => 500

/-- `HttpStatus::reason_phrase`. -/
def HttpStatus.reasonPhrase : HttpStatus → Str
  | .Ok => "OK".toList
  | .Created => "Created".toList
  | .NoContent => "No Content".toList
  | .MovedPermanently => "Moved Permanently".toList
  | .Found => "Found".toList
  | .BadRequest => "Bad Request".toList
  | .Forbidden => "Forbidden".toList
  | .NotFound => "Not Found".toList
  | .MethodNotAllowed => "Method Not Allowed".toList
  | .RequestEntityTooLarge => "Request Entity Too Large".toList
  | .InternalServerError => "Internal Server Error".toList

/- ---------------------------------------------------------------------
   src/http/request.rs — request data model and incremental parser.
--------------------------------------------------------------------- -/

/-- `HttpMethod`. -/
inductive HttpMethod : Type
  | GET | POST | DELETE | HEAD | PUT | OPTIONS | PATCH
deriving Repr, DecidableEq

/-- `HttpMethod::from_str` (`to_uppercase()` then exact match). -/
def HttpMethod.fromStr (s : Str) : Option HttpMethod :=
  let u := strUpper s
  if u = "GET".toList then some .GET
  else if u = "POST".toList then some .POST
  else if u = "DELETE".toList then some .DELETE
  else if u = "HEAD".toList then some .HEAD
  else if u = "PUT".toList then some .PUT
  else if u = "OPTIONS".toList then some .OPTIONS
  else if u = "PATCH".toList then some .PATCH
  else none

/-- `HttpMethod::as_str`. -/
def HttpMethod.asStr : HttpMethod → Str
  | .GET => "GET".toList
  | .POST => "POST".toList
  | .DELETE => "DELETE".toList
  | .HEAD => "HEAD".toList
  | .PUT => "PUT".toList
  | .OPTIONS => "OPTIONS".toList
  | .PATCH => "PATCH".toList

/-- `HttpVersion`. -/
inductive HttpVersion : Type
  | Http10 | Http11
deriving Repr, DecidableEq

/-- `HttpVersion::from_str`. -/
def HttpVersion.fromStr (s : Str) : Option HttpVersion :=
  if s = "HTTP/1.0".toList then some .Http10
  else if s = "HTTP/1.1".toList then some .Http11
  else none

/-- `HttpVersion::as_str`. -/
def HttpVersion.asStr : HttpVersion → Str
  | .Http10 => "HTTP/1.0".toList
  | .Http11 => "HTTP/1.1".toList

/-- The request path only ever builds `Cookie::new(name, value)` (all other
cookie fields keep their defaults), so the `CookieJar` is modelled as its
name → value map. -/
abbrev CookieJar := List (Str × Str)

/-- `CookieJar::parse_cookie_header`: split on `';'`, trim, split at the
first `'='`, trim both sides, insert keyed by name. -/
def parseCookieHeader (jar : CookieJar) (value : Str) : CookieJar :=
  (splitOnChar ';' value).foldl
    (fun jar pair =>
      let pair := strTrim pair
      match charIndexOf '=' pair with
      | some eqPos =>
        let name := strTrim (pair.take eqPos)
        let v := strTrim (pair.drop (eqPos + 1))
        mapInsert jar name v
      | none => jar)
    jar

/-- `HttpRequest`. -/
structure HttpRequest : Type where
  method : HttpMethod
  uri : Str
  version : HttpVersion
  headers : List (Str × Str)
  body : Bytes
  query_params : List (Str × Str)
  path : Str
  cookies : CookieJar
deriving Repr, DecidableEq

/-- `HttpRequest::new`. -/
def HttpRequest.new : HttpRequest :=
  { method := .GET
    uri := "/".toList
    version := .Http11
    headers := []
    body := []
    query_params := []
    path := "/".toList
    cookies := [] }

/-- `HttpRequest::get_header` (case-insensitive search over the map). -/
def HttpRequest.getHeader (r : HttpRequest) (name : Str) : Option Str :=
  let nameLower := strLower name
  ((r.headers.find? (fun p => strLower p.1 = nameLower)).map (fun p => p.2))

/-- `HttpRequest::keep_alive`. -/
def HttpRequest.keepAlive (r : HttpRequest) : Bool :=
  match r.version with
  | .Http11 =>
    match r.getHeader ("connection".toList) with
    | some v => strLower v ≠ "close".toList
    | none => true
  | .Http10 =>
    match r.getHeader ("connection".toList) with
    | some v => strLower v = "keep-alive".toList
    | none => false

/-- `HttpRequest::content_length`. -/
def HttpRequest.contentLength (r : HttpRequest) : Option Nat :=
  match r.getHeader ("content-length".toList) with
  | some v => parseUsize v
  | none => none

/-- `HttpRequest::is_chunked`. -/
def HttpRequest.isChunked (r : HttpRequest) : Bool :=
  match r.getHeader ("transfer-encoding".toList) with
  | some v => strContains (strLower v) ("chunked".toList)
  | none => false

/-- `ParseState`. -/
inductive ParseState : Type
  | RequestLine | Headers | Body | Complete
deriving Repr, DecidableEq

/-- `HttpRequestParser`. -/
structure HttpRequestParser : Type where
  state : ParseState
  request : HttpRequest
  body_bytes_remaining : Option Nat
  buffer : Bytes
  headers_end_pos : Option Nat
deriving Repr, DecidableEq

/-- `HttpRequestParser::new`. -/
def HttpRequestParser.new : HttpRequestParser :=
  { state := .RequestLine
    request := HttpRequest.new
    body_bytes_remaining := none
    buffer := []
    headers_end_pos := none }

/-- `url_decode` (src/http/request.rs): `%HH` becomes the byte named by the
two hex digits pushed as a `char`; `'+'` becomes a space; other chars pass
through; a truncated or unparsable escape is an error. -/
def urlDecode : Str → Except ServerError Str
  | [] => .ok []
  | '%' :: rest =>
    match rest with
    | hex1 :: hex2 :: rest2 =>
      match fromStrRadix16 hex1 hex2 with
      | some byte =>
        match urlDecode rest2 with
        | .ok s => .ok (Char.ofNat byte :: s)
        | .error e => .error e
      | none => .error (.Http ("Invalid URL encoding".toList))
    | _ => .error (.Http ("Invalid URL encoding".toList))
  | '+' :: rest =>
    match urlDecode rest with
    | .ok s => .ok (' ' :: s)
    | .error e => .error e
  | c :: rest =>
    match urlDecode rest with
    | .ok s => .ok (c :: s)
    | .error e => .error e

/-- `HttpRequestParser::parse_query_params`: split on `'&'`, split each pair
at the first `'='`, URL-decode key and value, insert. -/
def parseQueryParams (r : HttpRequest) (query : Str) : Except ServerError HttpRequest :=
  (splitOnChar '&' query).foldl
    (fun acc pair =>
      match acc with
      | .error e => .error e
      | .ok r =>
        match charIndexOf '=' pair with
        | some eqPos =>
          match urlDecode (pair.take eqPos) with
          | .error e => .error e
          | .ok key =>
            match urlDecode (pair.drop (eqPos + 1)) with
            | .error e => .error e
            | .ok v => .ok { r with query_params := mapInsert r.query_params key v }
        | none =>
          match urlDecode pair with
          | .error e => .error e
          | .ok key => .ok { r with query_params := mapInsert r.query_params key [] })
    (.ok r)

/-- `HttpRequestParser::parse_uri`: split at the first `'?'`, keep the raw
query for the params map, then URL-decode the path component. -/
def parseUri (r : HttpRequest) (uri : Str) : Except ServerError HttpRequest :=
  let step :=
    match charIndexOf '?' uri with
    | some queryStart =>
      let r := { r with path := uri.take queryStart }
      parseQueryParams r (uri.drop (queryStart + 1))
    | none => .ok { r with path := uri }
  match step with
  | .error e => .error e
  | .ok r =>
    match urlDecode r.path with
    | .error e => .error e
    | .ok decoded => .ok { r with path := decoded }

/-- `HttpRequestParser::parse_request_line`. -/
def parseRequestLine (r : HttpRequest) (line : Str) : Except ServerError HttpRequest :=
  let parts := splitWhitespace line
  if h : parts.length = 3 then
    match HttpMethod.fromStr (parts.get ⟨0, by omega⟩) with
    | none => .error (.Http (("Unknown HTTP method: ".toList) ++ parts.get ⟨0, by omega⟩))
    | some m =>
      let r := { r with method := m, uri := parts.get ⟨1, by omega⟩ }
      match parseUri r (parts.get ⟨1, by omega⟩) with
      | .error e => .error e
      | .ok r =>
        match HttpVersion.fromStr (parts.get ⟨2, by omega⟩) with
        | none => .error (.Http (("Unsupported HTTP version: ".toList) ++ parts.get ⟨2, by omega⟩))
        | some v => .ok { r with version := v }
  else .error (.Http ("Invalid request line".toList))

/-- One header line of `HttpRequestParser::parse_headers`. -/
def parseHeaderLine (r : HttpRequest) (line : Str) : Except ServerError HttpRequest :=
  if line = [] then .ok r
  else
    match charIndexOf ':' line with
    | some colonPos =>
      let name := strLower (strTrim (line.take colonPos))
      let value := strTrim (line.drop (colonPos + 1))
      let r :=
        if name = "cookie".toList then
          { r with cookies := parseCookieHeader r.cookies value }
        else r
      .ok { r with headers := mapInsert r.headers name value }
    | none => .error (.Http (("Invalid header line: ".toList) ++ line))

/-- `HttpRequestParser::parse_headers`. -/
def parseHeaders (r : HttpRequest) (headersStr : Str) : Except ServerError HttpRequest :=
  (strLines headersStr).foldl
    (fun acc line =>
      match acc with
      | .error e => .error e
      | .ok r => parseHeaderLine r line)
    (.ok r)

/-- The `\r\n` byte pattern. -/
def CRLF : Bytes := [13, 10]

/-- The `\r\n\r\n` byte pattern. -/
def CRLF2 : Bytes := [13, 10, 13, 10]

/-!
The `loop` in `HttpRequestParser::parse` only moves the state forward
(`RequestLine → Headers → Body/Complete → Complete`) and never revisits a
state, so it is the sequential composition of one step per state below.
Each step returns `(produced request?, parser)`; a `none` result is the
source's `break  // Need more data`.
-/

/-- `ParseState::Complete` arm of the loop: return the finished request. -/
def runComplete (p : HttpRequestParser) : Option HttpRequest × HttpRequestParser :=
  (some p.request, p)

/-- `ParseState::Body` arm of the loop (falls through to `Complete`
when the whole body is available). -/
def runBody (p : HttpRequestParser) : Option HttpRequest × HttpRequestParser :=
  match p.body_bytes_remaining with
  | some remaining =>
    if remaining ≤ p.buffer.length then
      runComplete
        { p with
          request := { p.request with body := p.buffer.take remaining }
          buffer := p.buffer.drop remaining
          state := .Complete }
    else (none, p)
  | none => runComplete { p with state := .Complete }

/-- `ParseState::Headers` arm of the loop (falls through to `Body` or
`Complete`). -/
def runHeaders (p : HttpRequestParser) :
    Except ServerError (Option HttpRequest × HttpRequestParser) :=
  match findSeq p.buffer CRLF2 with
  | none => .ok (none, p)
  | some headersEnd =>
    match utf8Decode (p.buffer.take headersEnd) with
    | none => .error (.Http ("Invalid UTF-8 in headers".toList))
    | some headersStr =>
      let p := { p with buffer := p.buffer.drop (headersEnd + 4) }
      match parseHeaders p.request headersStr with
      | .error e => .error e
      | .ok req =>
        let p := { p with request := req }
        match req.contentLength with
        | some contentLength =>
          if 0 < contentLength then
            .ok (runBody
              { p with body_bytes_remaining := some contentLength, state := .Body })
          else .ok (runComplete { p with state := .Complete })
        | none =>
          if req.isChunked then
            .error (.Http ("Chunked encoding not yet implemented".toList))
          else .ok (runComplete { p with state := .Complete })

/-- `ParseState::RequestLine` arm of the loop (falls through to
`Headers`). -/
def runRequestLine (p : HttpRequestParser) :
    Except ServerError (Option HttpRequest × HttpRequestParser) :=
  match findSeq p.buffer CRLF with
  | none => .ok (none, p)
  | some lineEnd =>
    match utf8Decode (p.buffer.take lineEnd) with
    | none => .error (.Http ("Invalid UTF-8 in request line".toList))
    | some line =>
      let p := { p with buffer := p.buffer.drop (lineEnd + 2) }
      match parseRequestLine p.request line with
      | .error e => .error e
      | .ok req => runHeaders { p with request := req, state := .Headers }

/-- The `loop` of `HttpRequestParser::parse`, dispatched on the entry
state. -/
def runLoop (p : HttpRequestParser) :
    Except ServerError (Option HttpRequest × HttpRequestParser) :=
  match p.state with
  | .RequestLine => runRequestLine p
  | .Headers => runHeaders p
  | .Body => .ok (runBody p)
  | .Complete => .ok (runComplete p)

/-- `HttpRequestParser::parse`: append the new data to the parser's buffer,
run the state machine, and report
`consumed = initial_buffer_len + data.len() - buffer.len()`. -/
def HttpRequestParser.parse (p : HttpRequestParser) (data : Bytes) :
    Except ServerError (Option HttpRequest × Nat × HttpRequestParser) :=
  let total := p.buffer.length + data.length
  match runLoop { p with buffer := p.buffer ++ data } with
  | .error e => .error e
  | .ok (res, p2) => .ok (res, total - p2.buffer.length, p2)

/-- `HttpRequestParser::reset`. -/
def HttpRequestParser.reset (_p : HttpRequestParser) : HttpRequestParser :=
  { state := .RequestLine
    request := HttpRequest.new
    body_bytes_remaining := none
    buffer := []
    headers_end_pos := none }

/-- `HttpRequestParser::is_complete`. -/
def HttpRequestParser.isComplete (p : HttpRequestParser) : Bool :=
  p.state = .Complete

/-- Byte image of an ASCII string, for writing concrete request streams. -/
def asciiBytes (s : String) : Bytes :=
  s.toList.map Char.toNat

/- ---------------------------------------------------------------------
   Parser lemmas: occurrence search is stable under appending data, and a
   stalled loop resumes exactly where it stopped.
--------------------------------------------------------------------- -/

theorem findSeqAux_bound {α : Type} [DecidableEq α] (pat : List α) :
    ∀ (buf : List α) (i j : Nat), findSeqAux pat buf i = some j →
      i ≤ j ∧ j - i + pat.length ≤ buf.length := by
  intro buf
  induction buf with
  | nil =>
    intro i j h
    simp only [findSeqAux] at h
    by_cases hp : pat.isPrefixOf ([] : List α) = true
    · have hpre : pat <+: [] := List.isPrefixOf_iff_prefix.mp hp
      have hlen : pat.length ≤ 0 := hpre.length_le
      simp [hp] at h
      omega
    · simp [hp] at h
  | cons b t ih =>
    intro i j h
    simp only [findSeqAux] at h
    by_cases hp : pat.isPrefixOf (b :: t) = true
    · have hpre : pat <+: b :: t := List.isPrefixOf_iff_prefix.mp hp
      have hlen : pat.length ≤ (b :: t).length := hpre.length_le
      simp [hp] at h
      subst h
      simpa using hlen
    · simp [hp] at h
      have := ih (i + 1) j h
      simp only [List.length_cons]
      omega

theorem findSeq_bound {α : Type} [DecidableEq α] (buf pat : List α) (j : Nat)
    (h : findSeq buf pat = some j) : j + pat.length ≤ buf.length := by
  have := findSeqAux_bound pat buf 0 j h
  omega

theorem findSeqAux_append {α : Type} [DecidableEq α] (pat d : List α) :
    ∀ (buf : List α) (i j : Nat), findSeqAux pat buf i = some j →
      findSeqAux pat (buf ++ d) i = some j := by
  intro buf
  induction buf with
  | nil =>
    intro i j h
    simp only [findSeqAux] at h
    by_cases hp : pat.isPrefixOf ([] : List α) = true
    · have hpre : pat <+: [] := List.isPrefixOf_iff_prefix.mp hp
      have hnil : pat = [] := List.prefix_nil.mp hpre
      simp [hp] at h
      subst h hnil
      cases d with
      | nil => simp [findSeqAux]
      | cons x xs => simp [findSeqAux, List.isPrefixOf]
    · simp [hp] at h
  | cons b t ih =>
    intro i j h
    simp only [findSeqAux] at h
    by_cases hp : pat.isPrefixOf (b :: t) = true
    · simp [hp] at h
      subst h
      have hpre : pat <+: b :: t := List.isPrefixOf_iff_prefix.mp hp
      have hpre2 : pat <+: (b :: t) ++ d := hpre.trans (List.prefix_append _ _)
      have hp2 : pat.isPrefixOf ((b :: t) ++ d) = true := List.isPrefixOf_iff_prefix.mpr hpre2
      simp only [List.cons_append, findSeqAux]
      simp only [List.cons_append] at hp2
      simp [hp2]
    · simp [hp] at h
      -- the match named by `h` lies fully inside `t`, so `pat` is short
      have hbound := findSeqAux_bound pat t (i + 1) j h
      have hfit : pat.length ≤ t.length := by omega
      -- hence the head-position check also fails on the extended buffer
      have hp2 : ¬ pat.isPrefixOf ((b :: t) ++ d) = true := by
        intro hcon
        apply hp
        have hpre : pat <+: (b :: t) ++ d := List.isPrefixOf_iff_prefix.mp hcon
        have htake : ((b :: t) ++ d).take pat.length = pat :=
          List.prefix_iff_eq_take.mp hpre |>.symm
        have hle : pat.length ≤ (b :: t).length := by simp; omega
        rw [List.take_append_of_le_length hle] at htake
        exact List.isPrefixOf_iff_prefix.mpr
          (List.prefix_iff_eq_take.mpr htake.symm)
      simp only [List.cons_append, findSeqAux]
      simp only [List.cons_append] at hp2
      simp [hp2]
      exact ih (i + 1) j h

theorem findSeq_append {α : Type} [DecidableEq α] (buf pat d : List α) (j : Nat)
    (h : findSeq buf pat = some j) : findSeq (buf ++ d) pat = some j :=
  findSeqAux_append pat d buf 0 j h


theorem runBody_stall (p p' : HttpRequestParser) (h : runBody p = (none, p')) :
    p' = p ∧ ∃ r, p.body_bytes_remaining = some r ∧ p.buffer.length < r := by
  cases hbr : p.body_bytes_remaining with
  | none => simp [runBody, hbr, runComplete] at h
  | some r =>
    simp only [runBody, hbr] at h
    by_cases hle : r ≤ p.buffer.length
    · simp [hle, runComplete] at h
    · simp [hle] at h
      exact ⟨h.symm, r, rfl, by omega⟩

theorem runHeaders_extend (p p' : HttpRequestParser) (d : Bytes)
    (hst : p.state = ParseState.Headers) (h : runHeaders p = .ok (none, p')) :
    runLoop { p' with buffer := p'.buffer ++ d } =
      runHeaders { p with buffer := p.buffer ++ d } := by
  cases hfs : findSeq p.buffer CRLF2 with
  | none =>
    simp only [runHeaders, hfs] at h
    simp only [Except.ok.injEq, Prod.mk.injEq, true_and] at h
    subst h
    simp [runLoop, runHeaders, hst]
  | some he =>
    have hbound := findSeq_bound p.buffer CRLF2 he hfs
    have hfs2 : findSeq (p.buffer ++ d) CRLF2 = some he := findSeq_append _ _ _ _ hfs
    have hle4 : he + 4 ≤ p.buffer.length := by
      simpa [CRLF2] using hbound
    have htake : (p.buffer ++ d).take he = p.buffer.take he :=
      List.take_append_of_le_length (by omega)
    have hdrop : (p.buffer ++ d).drop (he + 4) = p.buffer.drop (he + 4) ++ d :=
      List.drop_append_of_le_length (by omega)
    simp only [runHeaders, hfs] at h
    simp only [runHeaders, hfs2, htake, hdrop]
    cases hud : utf8Decode (p.buffer.take he) with
    | none => simp [hud] at h
    | some headersStr =>
      simp only [hud] at h ⊢
      cases hph : parseHeaders p.request headersStr with
      | error e => simp [hph] at h
      | ok req =>
        simp only [hph] at h ⊢
        cases hcl : req.contentLength with
        | some cl =>
          simp only [hcl] at h ⊢
          by_cases hpos : 0 < cl
          · simp only [if_pos hpos] at h ⊢
            have hrb : runBody
                { p with
                  buffer := p.buffer.drop (he + 4)
                  request := req
                  body_bytes_remaining := some cl
                  state := ParseState.Body } = (none, p') := by
              simpa only [Except.ok.injEq] using h
            obtain ⟨hp', r, hbr, hlt⟩ := runBody_stall _ _ hrb
            subst hp'
            simp [runLoop]
          · simp [if_neg hpos, runComplete] at h
        | none =>
          simp only [hcl] at h ⊢
          cases hch : req.isChunked with
          | true => simp [hch] at h
          | false => simp [hch, runComplete] at h


theorem runRequestLine_extend (p p' : HttpRequestParser) (d : Bytes)
    (hst : p.state = ParseState.RequestLine) (h : runRequestLine p = .ok (none, p')) :
    runLoop { p' with buffer := p'.buffer ++ d } =
      runRequestLine { p with buffer := p.buffer ++ d } := by
  cases hfs : findSeq p.buffer CRLF with
  | none =>
    simp only [runRequestLine, hfs] at h
    simp only [Except.ok.injEq, Prod.mk.injEq, true_and] at h
    subst h
    simp [runLoop, runRequestLine, hst]
  | some le =>
    have hbound := findSeq_bound p.buffer CRLF le hfs
    have hfs2 : findSeq (p.buffer ++ d) CRLF = some le := findSeq_append _ _ _ _ hfs
    have hle2 : le + 2 ≤ p.buffer.length := by
      simpa [CRLF] using hbound
    have htake : (p.buffer ++ d).take le = p.buffer.take le :=
      List.take_append_of_le_length (by omega)
    have hdrop : (p.buffer ++ d).drop (le + 2) = p.buffer.drop (le + 2) ++ d :=
      List.drop_append_of_le_length (by omega)
    simp only [runRequestLine, hfs] at h
    simp only [runRequestLine, hfs2, htake, hdrop]
    cases hud : utf8Decode (p.buffer.take le) with
    | none => simp [hud] at h
    | some line =>
      simp only [hud] at h ⊢
      cases hpl : parseRequestLine p.request line with
      | error e => simp [hpl] at h
      | ok req =>
        simp only [hpl] at h ⊢
        exact runHeaders_extend _ _ d rfl h

theorem runLoop_extend (p p' : HttpRequestParser) (d : Bytes)
    (h : runLoop p = .ok (none, p')) :
    runLoop { p' with buffer := p'.buffer ++ d } =
      runLoop { p with buffer := p.buffer ++ d } := by
  cases hst : p.state with
  | RequestLine =>
    have h1 : runRequestLine p = .ok (none, p') := by
      simpa only [runLoop, hst] using h
    have h2 := runRequestLine_extend p p' d hst h1
    rw [h2]
    simp [runLoop, hst]
  | Headers =>
    have h1 : runHeaders p = .ok (none, p') := by
      simpa only [runLoop, hst] using h
    have h2 := runHeaders_extend p p' d hst h1
    rw [h2]
    simp [runLoop, hst]
  | Body =>
    have h1 : runBody p = (none, p') := by
      simpa only [runLoop, hst, Except.ok.injEq] using h
    obtain ⟨hp', r, hbr, hlt⟩ := runBody_stall _ _ h1
    subst hp'
    rw [hst]
  | Complete =>
    simp [runLoop, hst, runComplete] at h

theorem parse_resumable_core (A B : Bytes) (pA : HttpRequestParser) (cA : Nat)
    (req : HttpRequest) (n : Nat) (pS : HttpRequestParser)
    (h1 : HttpRequestParser.parse HttpRequestParser.new A = .ok (none, cA, pA))
    (h2 : HttpRequestParser.parse HttpRequestParser.new (A ++ B) = .ok (some req, n, pS)) :
    ∃ m pB, HttpRequestParser.parse pA B = .ok (some req, m, pB) := by
  simp only [HttpRequestParser.parse, HttpRequestParser.new] at h1 h2
  simp only [List.nil_append, List.length_nil, Nat.zero_add] at h1 h2
  cases hr1 : runLoop
      { state := ParseState.RequestLine, request := HttpRequest.new,
        body_bytes_remaining := none, buffer := A, headers_end_pos := none } with
  | error e => rw [hr1] at h1; exact absurd h1 (by simp)
  | ok res1 =>
    rw [hr1] at h1
    obtain ⟨r1, q1⟩ := res1
    simp only [Except.ok.injEq, Prod.mk.injEq] at h1
    obtain ⟨hres1, _, hq1⟩ := h1
    subst hres1 hq1
    cases hr2 : runLoop
        { state := ParseState.RequestLine, request := HttpRequest.new,
          body_bytes_remaining := none, buffer := A ++ B, headers_end_pos := none } with
    | error e => rw [hr2] at h2; exact absurd h2 (by simp)
    | ok res2 =>
      rw [hr2] at h2
      obtain ⟨r2, q2⟩ := res2
      simp only [Except.ok.injEq, Prod.mk.injEq] at h2
      obtain ⟨hres2, _, hq2⟩ := h2
      subst hq2
      have hext := runLoop_extend _ _ B hr1
      simp only [HttpRequestParser.parse]
      rw [hext, hr2, hres2]
      exact ⟨_, _, rfl⟩

/-- C1: parser resumability.  If the whole stream `A ++ B` parses to a
complete request in one `parse` call on a fresh parser, and feeding `A`
alone reports need-more-data, then feeding `B` to the parser left by `A`
completes with the same request. -/
theorem parser_resumability (A B : Bytes) (pA : HttpRequestParser) (cA : Nat)
    (req : HttpRequest)
    (h1 : HttpRequestParser.parse HttpRequestParser.new A = .ok (none, cA, pA))
    (h2 : ∃ n pS,
      HttpRequestParser.parse HttpRequestParser.new (A ++ B) = .ok (some req, n, pS)) :
    ∃ m pB, HttpRequestParser.parse pA B = .ok (some req, m, pB) := by
  obtain ⟨n, pS, h2⟩ := h2
  exact parse_resumable_core A B pA cA req n pS h1 h2

/-- C1 witness: a concrete GET request cut in the middle of its header
block. -/
theorem parser_resumability_witness :
    ∃ m pB, HttpRequestParser.parse
      { state := ParseState.Headers
        request :=
          { method := HttpMethod.GET, uri := "/x".toList, version := HttpVersion.Http11,
            headers := [], body := [], query_params := [], path := "/x".toList, cookies := [] }
        body_bytes_remaining := none
        buffer := asciiBytes "Host: a"
        headers_end_pos := none }
      (asciiBytes "\r\n\r\n") =
      .ok (some
        { method := HttpMethod.GET, uri := "/x".toList, version := HttpVersion.Http11,
          headers := [("host".toList, "a".toList)], body := [], query_params := [],
          path := "/x".toList, cookies := [] }, m, pB) :=
  parser_resumability (asciiBytes "GET /x HTTP/1.1\r\nHost: a") (asciiBytes "\r\n\r\n")
    { state := ParseState.Headers
      request :=
        { method := HttpMethod.GET, uri := "/x".toList, version := HttpVersion.Http11,
          headers := [], body := [], query_params := [], path := "/x".toList, cookies := [] }
      body_bytes_remaining := none
      buffer := asciiBytes "Host: a"
      headers_end_pos := none }
    17
    { method := HttpMethod.GET, uri := "/x".toList, version := HttpVersion.Http11,
      headers := [("host".toList, "a".toList)], body := [], query_params := [],
      path := "/x".toList, cookies := [] }
    (by rfl)
    ⟨28,
      { state := ParseState.Complete
        request :=
          { method := HttpMethod.GET, uri := "/x".toList, version := HttpVersion.Http11,
            headers := [("host".toList, "a".toList)], body := [], query_params := [],
            path := "/x".toList, cookies := [] }
        body_bytes_remaining := none
        buffer := []
        headers_end_pos := none },
      by rfl⟩

/-- C10: once the parser has completed a request, each further `parse` call
returns that same request with zero bytes consumed (new data only
accumulates in the buffer, so the parser stays in `Complete`), and `reset`
rebuilds the initial parser — state `RequestLine`, fresh empty request,
empty buffer. -/
theorem parse_complete_sticky (p : HttpRequestParser) (data : Bytes)
    (h : p.state = ParseState.Complete) :
    HttpRequestParser.parse p data =
        .ok (some p.request, 0, { p with buffer := p.buffer ++ data }) ∧
      HttpRequestParser.reset p = HttpRequestParser.new := by
  refine ⟨?_, rfl⟩
  simp [HttpRequestParser.parse, runLoop, h, runComplete]

/-- C10 witness: a parser that has just completed a tiny GET request, fed
further bytes. -/
theorem parse_complete_sticky_witness :
    HttpRequestParser.parse
        { state := ParseState.Complete
          request := HttpRequest.new
          body_bytes_remaining := none
          buffer := []
          headers_end_pos := none }
        (asciiBytes "GET") =
      .ok (some HttpRequest.new, 0,
        { state := ParseState.Complete
          request := HttpRequest.new
          body_bytes_remaining := none
          buffer := asciiBytes "GET"
          headers_end_pos := none }) ∧
      HttpRequestParser.reset
        { state := ParseState.Complete
          request := HttpRequest.new
          body_bytes_remaining := none
          buffer := []
          headers_end_pos := none } = HttpRequestParser.new :=
  parse_complete_sticky _ (asciiBytes "GET") rfl

/- ---------------------------------------------------------------------
   src/http/response.rs — response construction and wire encoding.
--------------------------------------------------------------------- -/

/-- Decimal digit character. -/
def digitChar (d : Nat) : Char := Char.ofNat (48 + d)

/-- Fuel-indexed decimal printer (fuel `n + 1` always suffices). -/
def natToStrAux : Nat → Nat → Str
  | 0, _ => []
  | fuel + 1, n =>
    if n < 10 then [digitChar n]
    else natToStrAux fuel (n / 10) ++ [digitChar (n % 10)]

/-- Rust `usize::to_string` / `{}` formatting of an unsigned integer. -/
def natToStr (n : Nat) : Str := natToStrAux (n + 1) n

/-- UTF-8 encoding of one char (`String::into_bytes` building block). -/
def utf8EncodeChar (c : Char) : Bytes :=
  let n := c.toNat
  if n < 0x80 then [n]
  else if n < 0x800 then [0xC0 + n / 64, 0x80 + n % 64]
  else if n < 0x10000 then [0xE0 + n / 4096, 0x80 + (n / 64) % 64, 0x80 + n % 64]
  else [0xF0 + n / 262144, 0x80 + (n / 4096) % 64, 0x80 + (n / 64) % 64, 0x80 + n % 64]

/-- Rust `String::into_bytes` / `str::as_bytes`. -/
def utf8Encode (s : Str) : Bytes :=
  s.foldr (fun c acc => utf8EncodeChar c ++ acc) []

/-- `httpdate::fmt_http_date` (src/http/response.rs): the simplified
formatter emits a fixed date with only the seconds field live. -/
def fmtHttpDate (timestamp : Nat) : Str :=
  "Thu, 01 Jan 1970 00:00:".toList ++
    (if timestamp % 60 < 10 then '0' :: natToStr (timestamp % 60) else natToStr (timestamp % 60)) ++
    " GMT".toList

/-- `HttpResponse`. -/
structure HttpResponse : Type where
  version : HttpVersion
  status : HttpStatus
  headers : List (Str × Str)
  body : Bytes
deriving Repr, DecidableEq

/-- `HttpResponse::add_header`. -/
def HttpResponse.addHeader (r : HttpResponse) (name value : Str) : HttpResponse :=
  { r with headers := mapInsert r.headers name value }

/-- `HttpResponse::new` (`now` is the wall clock read by the `Date`
header). -/
def HttpResponse.new (now : Nat) (status : HttpStatus) : HttpResponse :=
  (({ version := .Http11, status := status, headers := [], body := [] } : HttpResponse).addHeader
      ("Server".toList) ("localhost-http-server/0.1.0".toList)).addHeader
    ("Date".toList) (fmtHttpDate now)

/-- `HttpResponse::set_body`: store the body and refresh `Content-Length`. -/
def HttpResponse.setBody (r : HttpResponse) (body : Bytes) : HttpResponse :=
  ({ r with body := body } : HttpResponse).addHeader
    ("Content-Length".toList) (natToStr body.length)

/-- `HttpResponse::set_body_string`. -/
def HttpResponse.setBodyString (r : HttpResponse) (s : Str) : HttpResponse :=
  r.setBody (utf8Encode s)

/-- `HttpResponse::set_content_type`. -/
def HttpResponse.setContentType (r : HttpResponse) (ct : Str) : HttpResponse :=
  r.addHeader ("Content-Type".toList) ct

/-- `HttpResponse::set_keep_alive`. -/
def HttpResponse.setKeepAlive (r : HttpResponse) (keepAlive : Bool) : HttpResponse :=
  if keepAlive then r.addHeader ("Connection".toList) ("keep-alive".toList)
  else r.addHeader ("Connection".toList) ("close".toList)

/-- `HttpResponse::to_bytes`: status line, headers in map order, blank line,
body. -/
def HttpResponse.toBytes (r : HttpResponse) : Bytes :=
  let statusLine :=
    r.version.asStr ++ [' '] ++ natToStr r.status.asU16 ++ [' '] ++
      r.status.reasonPhrase ++ ['\r', '\n']
  let headerLines :=
    r.headers.foldl (fun acc p => acc ++ p.1 ++ [':', ' '] ++ p.2 ++ ['\r', '\n']) []
  utf8Encode (statusLine ++ headerLines ++ ['\r', '\n']) ++ r.body

/-- `HttpResponse::text`. -/
def HttpResponse.text (now : Nat) (status : HttpStatus) (t : Str) : HttpResponse :=
  ((HttpResponse.new now status).setContentType
    ("text/plain; charset=utf-8".toList)).setBodyString t

/-- `HttpResponse::html`. -/
def HttpResponse.html (now : Nat) (status : HttpStatus) (h : Str) : HttpResponse :=
  ((HttpResponse.new now status).setContentType
    ("text/html; charset=utf-8".toList)).setBodyString h

/-- `HttpResponse::json`. -/
def HttpResponse.json (now : Nat) (status : HttpStatus) (j : Str) : HttpResponse :=
  ((HttpResponse.new now status).setContentType
    ("application/json; charset=utf-8".toList)).setBodyString j

/-- `HttpResponse::file`. -/
def HttpResponse.file (now : Nat) (status : HttpStatus) (content : Bytes)
    (contentType : Str) : HttpResponse :=
  ((HttpResponse.new now status).setContentType contentType).setBody content

/-- `HttpResponse::redirect`. -/
def HttpResponse.redirect (now : Nat) (location : Str) (permanent : Bool) : HttpResponse :=
  let status := if permanent then HttpStatus.MovedPermanently else HttpStatus.Found
  let body :=
    "<!DOCTYPE html>\n<html><head><title>Redirect</title></head>\n<body><h1>Redirect</h1><p>This page has moved to <a href=\"".toList ++
      location ++ "\">".toList ++ location ++ "</a></p></body></html>".toList
  (((HttpResponse.new now status).addHeader ("Location".toList) location).setBodyString
      body).setContentType ("text/html; charset=utf-8".toList)

/-- `HttpResponse::error`. -/
def HttpResponse.error (now : Nat) (status : HttpStatus) (message : Option Str) : HttpResponse :=
  let defaultMessage := natToStr status.asU16 ++ [' '] ++ status.reasonPhrase
  let errorMessage := message.getD defaultMessage
  let h :=
    "<!DOCTYPE html>\n<html><head><title>".toList ++ defaultMessage ++
      "</title></head>\n<body><h1>".toList ++ defaultMessage ++ "</h1><p>".toList ++
      errorMessage ++ "</p></body></html>".toList
  HttpResponse.html now status h

/- ---------------------------------------------------------------------
   src/error/pages.rs — error page manager.
--------------------------------------------------------------------- -/

/-- The default error page template of
`ErrorPageManager::generate_default_error_page`, with the five `format!`
splices. -/
def defaultErrorPageTemplate (codeStr reason message : Str) : Str :=
  "<!DOCTYPE html>\n<html lang=\"en\">\n<head>\n    <meta charset=\"UTF-8\">\n    <meta name=\"viewport\" content=\"width=device-width, initial-scale=1.0\">\n    <title>".toList ++
    codeStr ++
    " - ".toList ++
    reason ++
    "</title>\n    <style>\n        body \x7b\n            font-family: Arial, sans-serif;\n            text-align: center;\n            padding: 50px;\n            background-color: #f5f5f5;\n            margin: 0;\n        \x7d\n        .error-container \x7b\n            background: white;\n            padding: 40px;\n            border-radius: 8px;\n            box-shadow: 0 2px 10px rgba(0,0,0,0.1);\n            max-width: 500px;\n            margin: 0 auto;\n        \x7d\n        h1 \x7b\n            color: #dc3545;\n            font-size: 4em;\n            margin: 0;\n        \x7d\n        h2 \x7b\n            color: #333;\n            margin: 20px 0;\n        \x7d\n        p \x7b\n            color: #666;\n            line-height: 1.6;\n        \x7d\n        a \x7b\n            color: #007bff;\n            text-decoration: none;\n        \x7d\n        a:hover \x7b\n            text-decoration: underline;\n        \x7d\n        .server-info \x7b\n            margin-top: 30px;\n            padding-top: 20px;\n            border-top: 1px solid #eee;\n            font-size: 0.9em;\n            color: #999;\n        \x7d\n    </style>\n</head>\n<body>\n    <div class=\"error-container\">\n        <h1>".toList ++
    codeStr ++
    "</h1>\n        <h2>".toList ++
    reason ++
    "</h2>\n        <p>".toList ++
    message ++
    "</p>\n        <p><a href=\"/\">\u201A\u00DC\u00EA Return to Home</a></p>\n        <div class=\"server-info\">\n            Localhost HTTP Server v0.1.0\n        </div>\n    </div>\n</body>\n</html>".toList

/-- `ErrorPageManager` (`custom_pages` comes from the binding's
`error_pages` map). -/
structure ErrorPageManager : Type where
  custom_pages : List (Nat × Str)
deriving Repr, DecidableEq

/-- Read-only filesystem and process oracle: `fs::*` calls, `Path::*`
queries, the wall clock, MIME lookup (an out-of-scope collaborator per the
spec) and CGI child execution are external effects, modelled as an
arbitrary but fixed environment. -/
structure DirEntry : Type where
  name : Str
  is_dir : Bool
  size : Nat
  modified : Option Nat
deriving Repr, DecidableEq

/-- Result of running a CGI child to completion
(`CgiExecutor::execute_script` observables): an error on the spawn / stdin
/ wait / timeout / size-cap paths, a non-zero exit, or the child's stdout
(after `String::from_utf8_lossy`). -/
inductive CgiRun : Type
  | err (e : ServerError)
  | nonZeroExit
  | success (stdout : Str)
deriving Repr, DecidableEq

/-- The external world: filesystem, clock, MIME table, CGI execution. -/
structure World : Type where
  now : Nat
  canonicalize : Str → Option Str
  readToString : Str → Option Str
  readFile : Str → Option Bytes
  pathExists : Str → Bool
  isFile : Str → Bool
  isDir : Str → Bool
  readDir : Str → Option (List DirEntry)
  modifiedTime : Str → Option Nat
  writeOk : Str → Bytes → Bool
  removeOk : Str → Bool
  mimeDetect : Str → Str
  cgiRun : Str → Str → Bytes → CgiRun

/-- `ErrorPageManager::generate_default_error_page`. -/
def ErrorPageManager.generateDefaultErrorPage (_em : ErrorPageManager)
    (status : HttpStatus) (customMessage : Option Str) : Str :=
  let message := customMessage.getD
    ("The server encountered an error processing your request.".toList)
  defaultErrorPageTemplate (natToStr status.asU16) status.reasonPhrase message

/-- `ErrorPageManager::generate_error_page`: a configured and readable
custom page wins, else the default template. -/
def ErrorPageManager.generateErrorPage (em : ErrorPageManager) (w : World)
    (status : HttpStatus) (customMessage : Option Str) : Str :=
  match em.custom_pages.find? (fun p => p.1 = status.asU16) with
  | some entry =>
    match w.readToString entry.2 with
    | some content => content
    | none => em.generateDefaultErrorPage status customMessage
  | none => em.generateDefaultErrorPage status customMessage

/-- `ErrorPageManager::generate_error_response`: HTML error body plus the
three security headers. -/
def ErrorPageManager.generateErrorResponse (em : ErrorPageManager) (w : World)
    (status : HttpStatus) (customMessage : Option Str) : HttpResponse :=
  (((HttpResponse.html w.now status (em.generateErrorPage w status customMessage)).addHeader
        ("X-Content-Type-Options".toList) ("nosniff".toList)).addHeader
      ("X-Frame-Options".toList) ("DENY".toList)).addHeader
    ("X-XSS-Protection".toList) ("1; mode=block".toList)

/- ---------------------------------------------------------------------
   src/config/types.rs — configuration structures.
--------------------------------------------------------------------- -/

/-- `RouteConfig`. -/
structure RouteConfig : Type where
  path : Str
  methods : List Str
  redirect : Option Str
  root : Option Str
  index : Option Str
  cgi : Option Str
  directory_listing : Bool
  upload_enabled : Bool
deriving Repr, DecidableEq

/-- `ServerConfig`. -/
structure ServerConfig : Type where
  host : Str
  ports : List Nat
  server_name : Option Str
  error_pages : List (Nat × Str)
  max_body_size : Nat
  routes : List RouteConfig
deriving Repr, DecidableEq

/-- `Config`. -/
structure Config : Type where
  servers : List ServerConfig
deriving Repr, DecidableEq

/- ---------------------------------------------------------------------
   src/routing/router.rs — virtual host and longest-prefix route
   selection.
--------------------------------------------------------------------- -/

/-- `Router::path_matches_route`: exact match, or directory-style prefix
for routes ending in `/`, or prefix continuing with `/` otherwise. -/
def pathMatchesRoute (path routePath : Str) : Bool :=
  if path = routePath then true
  else if strEndsWithChar routePath '/' then strStartsWith path routePath
  else if strStartsWith path routePath then
    let remaining := path.drop routePath.length
    remaining = [] || (match remaining with | '/' :: _ => true | _ => false)
  else false

/-- The scan of `Router::find_best_route`: keep the first route strictly
longer than the best so far among the matches. -/
def findBestRouteAux (path : Str) :
    List RouteConfig → Option RouteConfig → Nat → Option RouteConfig
  | [], best, _ => best
  | route :: rest, best, bestLen =>
    if pathMatchesRoute path route.path ∧ bestLen < route.path.length then
      findBestRouteAux path rest (some route) route.path.length
    else findBestRouteAux path rest best bestLen

/-- `Router::find_best_route`. -/
def findBestRoute (server : ServerConfig) (path : Str) :
    Except ServerError RouteConfig :=
  match findBestRouteAux path server.routes none 0 with
  | some route => .ok route
  | none => .error (.Http ("No matching route found".toList))

/-- `Router::find_server`: strip the port from the host header, prefer a
binding with that `server_name`, else fall back to the first binding. -/
def findServer (servers : List ServerConfig) (host : Option Str) :
    Except ServerError ServerConfig :=
  let byName :=
    match host with
    | some hostHeader =>
      let hostname := (splitOnChar ':' hostHeader).headD hostHeader
      servers.find? (fun s => s.server_name = some hostname)
    | none => none
  match byName with
  | some s => .ok s
  | none =>
    match servers.head? with
    | some s => .ok s
    | none => .error (.Config ("No servers configured".toList))

/-- `Router::find_route`. -/
def findRoute (cfg : Config) (host : Option Str) (path : Str) :
    Except ServerError (ServerConfig × RouteConfig) :=
  match findServer cfg.servers host with
  | .error e => .error e
  | .ok server =>
    match findBestRoute server path with
    | .error e => .error e
    | .ok route => .ok (server, route)

/- ---------------------------------------------------------------------
   src/routing/static_files.rs — path resolution and file serving.
--------------------------------------------------------------------- -/

/-- `Path` components (separator-split, empty segments dropped), the basis
of the component-wise `Path::starts_with` on canonical absolute paths. -/
def pathComponents (p : Str) : List Str :=
  (splitOnChar '/' p).filter (fun seg => seg ≠ [])

/-- `Path::starts_with` for the canonical absolute paths produced by
`fs::canonicalize`: component-wise prefix. -/
def pathStartsWith (p base : Str) : Bool :=
  (pathComponents base).isPrefixOf (pathComponents p)

/-- `PathBuf::push` (string level): an absolute component replaces the
path, otherwise a separator is inserted when needed. -/
def pathPush (base rel : Str) : Str :=
  if rel = [] then base
  else if strStartsWith rel ("/".toList) then rel
  else if base = [] then rel
  else if strEndsWithChar base '/' then base ++ rel
  else base ++ "/".toList ++ rel

/-- `str::strip_prefix('/')` followed by `unwrap_or`. -/
def stripLeadingSlash (s : Str) : Str :=
  match s with
  | '/' :: rest => rest
  | _ => s

/-- `StaticFileServer::resolve_path`: strip the route prefix, join against
the root, and reject resolved paths whose canonical form escapes the
canonical root.  When the joined path cannot be canonicalized the check is
skipped (mirroring the `if let Ok` in the source). -/
def resolvedFullPath (root requestPath routePath : Str) : Str :=
  let relativePath :=
    if strStartsWith requestPath routePath then requestPath.drop routePath.length
    else requestPath
  let relativePath := stripLeadingSlash relativePath
  if relativePath = [] then root else pathPush root relativePath

/-- `StaticFileServer::resolve_path` continued: canonicalize the root and
the joined path and reject escapes. -/
def resolvePath (w : World) (root requestPath routePath : Str) :
    Except ServerError Str :=
  let fullPath := resolvedFullPath root requestPath routePath
  match w.canonicalize root with
  | none => .error (.Config (("Invalid root directory: ".toList) ++ root))
  | some canonicalRoot =>
    match w.canonicalize fullPath with
    | some canonicalPath =>
      if pathStartsWith canonicalPath canonicalRoot then .ok fullPath
      else .error (.Http ("Path traversal attempt detected".toList))
    | none => .ok fullPath

/-- `format_file_size` at `Nat` precision.  The source divides an `f64` by
1024 and prints with one rounded decimal; this model truncates the decimal
instead.  The string is only interpolated into listing HTML and no claim
depends on it. -/
def formatFileSize (size : Nat) : Str :=
  if size < 1024 then natToStr size ++ " B".toList
  else
    let (k, unit) :=
      if size < 1024 ^ 2 then (1, " KB".toList)
      else if size < 1024 ^ 3 then (2, " MB".toList)
      else if size < 1024 ^ 4 then (3, " GB".toList)
      else (4, " TB".toList)
    let v10 := size * 10 / 1024 ^ k
    natToStr (v10 / 10) ++ [ '.' ] ++ natToStr (v10 % 10) ++ unit

/-- `format_http_date` (src/routing/static_files.rs): same fixed date as
the response encoder, seconds field live. -/
def formatHttpDateStatic (t : Nat) : Str :=
  "Thu, 01 Jan 1970 00:00:".toList ++
    (if t % 60 < 10 then '0' :: natToStr (t % 60) else natToStr (t % 60)) ++
    " GMT".toList

/-- `format_time` (directory listing timestamp column). -/
def formatTimeListing (t : Nat) : Str :=
  "1970-01-01 00:00:".toList ++
    (if t % 60 < 10 then '0' :: natToStr (t % 60) else natToStr (t % 60))

/-- `StaticFileServer::add_caching_headers`. -/
def addCachingHeaders (w : World) (r : HttpResponse) (filePath : Str) : HttpResponse :=
  let r :=
    match w.modifiedTime filePath with
    | some t => r.addHeader ("Last-Modified".toList) (formatHttpDateStatic t)
    | none => r
  r.addHeader ("Cache-Control".toList) ("public, max-age=3600".toList)

/-- `StaticFileServer::serve_file`. -/
def serveFile (w : World) (filePath : Str) : Except ServerError HttpResponse :=
  if ¬ w.pathExists filePath then
    .ok (HttpResponse.error w.now .NotFound (some ("File not found".toList)))
  else if ¬ w.isFile filePath then
    .ok (HttpResponse.error w.now .Forbidden (some ("Not a file".toList)))
  else
    match w.readFile filePath with
    | none => .error (.Http ("Failed to read file".toList))
    | some content =>
      let contentType := w.mimeDetect filePath
      .ok (addCachingHeaders w (HttpResponse.file w.now .Ok content contentType) filePath)

/-- Sort comparator of the directory listing: directories first, then
byte-wise lexicographic file names. -/
def strLeBool : Str → Str → Bool
  | [], _ => true
  | _ :: _, [] => false
  | a :: as, b :: bs => if a < b then true else if a = b then strLeBool as bs else false

/-- Listing order (`entries_vec.sort_by`). -/
def dirEntryLe (a b : DirEntry) : Bool :=
  match a.is_dir, b.is_dir with
  | true, false => true
  | false, true => false
  | _, _ => strLeBool a.name b.name

/-- Insertion step of the listing sort. -/
def insertBy {α : Type} (le : α → α → Bool) (a : α) : List α → List α
  | [] => [a]
  | b :: bs => if le a b then a :: b :: bs else b :: insertBy le a bs

/-- Insertion sort (directory names are unique, so ties cannot arise and
stability is immaterial). -/
def sortBy {α : Type} (le : α → α → Bool) : List α → List α
  | [] => []
  | a :: as => insertBy le a (sortBy le as)

/-- Last-separator split used for the parent-directory link
(`rsplitn(2, '/').nth(1)`). -/
def parentBeforeLastSlash (s : Str) : Option Str :=
  match charIndexOf '/' s.reverse with
  | some i => some (s.take (s.length - 1 - i))
  | none => none

/-- One `<tr>` row of the directory listing. -/
def dirListingRow (urlPath : Str) (e : DirEntry) : Str :=
  let displayName :=
    if e.is_dir then "📁 ".toList ++ e.name ++ "/".toList
    else "📄 ".toList ++ e.name
  let href :=
    if strEndsWithChar urlPath '/' then urlPath ++ e.name
    else urlPath ++ "/".toList ++ e.name
  let sizeStr := if e.is_dir then "-".toList else formatFileSize e.size
  let modifiedStr :=
    match e.modified with
    | some t => formatTimeListing t
    | none => "-".toList
  "<tr><td><a href=\"".toList ++ href ++ "\">".toList ++ displayName ++
    "</a></td><td class=\"size\">".toList ++ sizeStr ++
    "</td><td class=\"date\">".toList ++ modifiedStr ++ "</td></tr>\n".toList

/-- The static HTML head of the directory listing page. -/
def dirListingHead : Str :=
  ("<!DOCTYPE html>\n<html><head>\n<title>Directory Listing</title>\n<style>\n" ++
    "body \x7b font-family: Arial, sans-serif; margin: 40px; \x7d\n" ++
    "h1 \x7b color: #333; \x7d\n" ++
    "table \x7b border-collapse: collapse; width: 100%; \x7d\n" ++
    "th, td \x7b text-align: left; padding: 8px 12px; border-bottom: 1px solid #ddd; \x7d\n" ++
    "th \x7b background-color: #f5f5f5; \x7d\n" ++
    "a \x7b text-decoration: none; color: #0066cc; \x7d\n" ++
    "a:hover \x7b text-decoration: underline; \x7d\n" ++
    ".size \x7b text-align: right; \x7d\n" ++
    ".date \x7b white-space: nowrap; \x7d\n" ++
    "</style>\n</head><body>\n").toList

/-- `StaticFileServer::generate_directory_listing`. -/
def generateDirectoryListing (w : World) (dirPath urlPath : Str) :
    Except ServerError HttpResponse :=
  match w.readDir dirPath with
  | none => .error (.Http ("Failed to read directory".toList))
  | some entries =>
    let parentLink :=
      if urlPath ≠ "/".toList then
        let parentPath :=
          if strEndsWithChar urlPath '/' then urlPath ++ "../".toList
          else (parentBeforeLastSlash urlPath).getD [] ++ "/".toList
        "<p><a href=\"".toList ++ parentPath ++
          "\">📁 Parent Directory</a></p>\n".toList
      else []
    let rows := (sortBy dirEntryLe entries).foldl
      (fun acc e => acc ++ dirListingRow urlPath e) []
    let html :=
      dirListingHead ++
        "<h1>Directory listing for ".toList ++ urlPath ++ "</h1>\n".toList ++
        parentLink ++
        "<table>\n<tr><th>Name</th><th>Size</th><th>Modified</th></tr>\n".toList ++
        rows ++ "</table>\n</body></html>".toList
    .ok (HttpResponse.html w.now .Ok html)

/-- `StaticFileServer::serve_directory`. -/
def serveDirectory (w : World) (dirPath : Str) (indexFile : Option Str)
    (allowListing : Bool) (urlPath : Str) : Except ServerError HttpResponse :=
  if ¬ (w.pathExists dirPath ∧ w.isDir dirPath) then
    .ok (HttpResponse.error w.now .NotFound (some ("Directory not found".toList)))
  else
    let indexHit :=
      match indexFile with
      | some index =>
        let indexPath := pathPush dirPath index
        if w.pathExists indexPath ∧ w.isFile indexPath then some indexPath else none
      | none => none
    match indexHit with
    | some indexPath => serveFile w indexPath
    | none =>
      if allowListing then generateDirectoryListing w dirPath urlPath
      else .ok (HttpResponse.error w.now .Forbidden (some ("Directory listing disabled".toList)))

/- ---------------------------------------------------------------------
   src/cgi/executor.rs — CGI output parsing and script execution.
   The child process itself (environment, pipes, polling) is the
   `World.cgiRun` oracle; `CgiEnvironment` only feeds the child and is
   absorbed by it.
--------------------------------------------------------------------- -/

/-- Rust `str::parse::<u16>()` (the `Status:` code parse). -/
def parseU16 (s : Str) : Option Nat :=
  let core :=
    match s with
    | '+' :: rest => digitsVal rest
    | '-' :: rest => if rest ≠ [] ∧ rest.all (fun c => c = '0') then some 0 else none
    | _ => digitsVal s
  match core with
  | some v => if v < 2 ^ 16 then some v else none
  | none => none

/-- The `Status:` code mapping of `parse_cgi_output` (unknown codes default
to 200). -/
def statusFromCode (code : Nat) : HttpStatus :=
  if code = 200 then .Ok
  else if code = 201 then .Created
  else if code = 204 then .NoContent
  else if code = 301 then .MovedPermanently
  else if code = 302 then .Found
  else if code = 400 then .BadRequest
  else if code = 403 then .Forbidden
  else if code = 404 then .NotFound
  else if code = 405 then .MethodNotAllowed
  else if code = 413 then .RequestEntityTooLarge
  else if code = 500 then .InternalServerError
  else .Ok

/-- One header line of `parse_cgi_output`, acting on
`(response, content_type_set)`. -/
def cgiHeaderLine (w : World) (acc : HttpResponse × Bool) (line : Str) :
    HttpResponse × Bool :=
  let (response, ctSet) := acc
  if strTrim line = [] then acc
  else
    match charIndexOf ':' line with
    | none => acc
    | some colonPos =>
      let name := strTrim (line.take colonPos)
      let value := strTrim (line.drop (colonPos + 1))
      let nameLower := strLower name
      if nameLower = "content-type".toList then (response.setContentType value, true)
      else if nameLower = "status".toList then
        match charIndexOf ' ' value with
        | some spacePos =>
          match parseU16 (value.take spacePos) with
          | some code => (HttpResponse.new w.now (statusFromCode code), ctSet)
          | none => (response, ctSet)
        | none => (response, ctSet)
      else if nameLower = "location".toList then
        (response.addHeader ("Location".toList) value, ctSet)
      else (response.addHeader name value, ctSet)

/-- `CgiExecutor::parse_cgi_output`, over the `from_utf8_lossy` image of
the child's stdout.  The boundary is the first `CRLF CRLF`, else the first
`LF LF`; with no boundary the whole output becomes the body of a
`200 OK text/html` response. -/
def parseCgiOutput (w : World) (outputStr : Str) : Except ServerError HttpResponse :=
  let headerEnd :=
    match findSeq outputStr ("\r\n\r\n".toList) with
    | some pos => some (pos + 4)
    | none =>
      match findSeq outputStr ("\n\n".toList) with
      | some pos => some (pos + 2)
      | none => none
  match headerEnd with
  | none => .ok (HttpResponse.html w.now .Ok outputStr)
  | some headerEnd =>
    let headersStr := outputStr.take (headerEnd - 2)
    let bodyStr := outputStr.drop headerEnd
    let parsed := (strLines headersStr).foldl (cgiHeaderLine w) (HttpResponse.new w.now .Ok, false)
    let response := parsed.1
    let response :=
      if ¬ parsed.2 then response.setContentType ("text/html; charset=utf-8".toList)
      else response
    .ok (response.setBodyString bodyStr)

/-- `CgiExecutor::extract_path_info`. -/
def extractPathInfo (requestPath routePath : Str) : Str :=
  if strStartsWith requestPath routePath then
    stripLeadingSlash (requestPath.drop routePath.length)
  else []

/-- `CgiExecutor::execute_script`: spawn / feed / wait via the oracle, then
map non-zero exit to a canonical 500 page and parse the output
otherwise. -/
def executeScript (w : World) (interpreter scriptPath : Str) (inputData : Bytes) :
    Except ServerError HttpResponse :=
  match w.cgiRun interpreter scriptPath inputData with
  | .err e => .error e
  | .nonZeroExit =>
    .ok (HttpResponse.error w.now .InternalServerError
      (some ("CGI script execution failed".toList)))
  | .success stdout => parseCgiOutput w stdout

/-- `CgiExecutor::execute`. -/
def cgiExecute (w : World) (req : HttpRequest) (route : RouteConfig)
    (scriptPath : Str) : Except ServerError HttpResponse :=
  if ¬ w.pathExists scriptPath then
    .ok (HttpResponse.error w.now .NotFound (some ("CGI script not found".toList)))
  else
    match route.cgi with
    | none => .error (.Cgi ("No CGI interpreter configured".toList))
    | some interpreter => executeScript w interpreter scriptPath req.body

/- ---------------------------------------------------------------------
   src/http/methods.rs — the request dispatcher.
--------------------------------------------------------------------- -/

/-- The `ErrorPageManager` built from the first binding
(`MethodHandler::new` and `Server::new` do the same). -/
def errorManagerFromConfig (cfg : Config) : ErrorPageManager :=
  match cfg.servers.head? with
  | some s => { custom_pages := s.error_pages }
  | none => { custom_pages := [] }

/-- `MethodHandler::handle_cgi`. -/
def handleCgi (w : World) (cfg : Config) (req : HttpRequest)
    (route : RouteConfig) : Except ServerError HttpResponse :=
  let em := errorManagerFromConfig cfg
  match route.root with
  | none => .error (.Config ("CGI route has no root directory".toList))
  | some root =>
    match resolvePath w root req.path route.path with
    | .error e => .error e
    | .ok scriptPath =>
      if ¬ w.pathExists scriptPath then
        .ok (em.generateErrorResponse w .NotFound (some ("CGI script not found".toList)))
      else if ¬ w.isFile scriptPath then
        .ok (em.generateErrorResponse w .Forbidden (some ("Not a valid CGI script".toList)))
      else
        match cgiExecute w req route scriptPath with
        | .ok r => .ok r
        | .error _ =>
          .ok (em.generateErrorResponse w .InternalServerError
            (some ("CGI script execution failed".toList)))

/-- `MethodHandler::handle_get`. -/
def handleGet (w : World) (cfg : Config) (req : HttpRequest)
    (route : RouteConfig) : Except ServerError HttpResponse :=
  let em := errorManagerFromConfig cfg
  match route.redirect with
  | some redirectUrl => .ok (HttpResponse.redirect w.now redirectUrl false)
  | none =>
    if route.cgi.isSome then handleCgi w cfg req route
    else
      match route.root with
      | none => .error (.Config ("Route has no root directory".toList))
      | some root =>
        match resolvePath w root req.path route.path with
        | .error e => .error e
        | .ok filePath =>
          if ¬ w.pathExists filePath then
            .ok (em.generateErrorResponse w .NotFound (some ("File not found".toList)))
          else if w.isDir filePath then
            serveDirectory w filePath route.index route.directory_listing req.path
          else serveFile w filePath

/-- `MethodHandler::handle_file_upload` (`upload_{now}.bin` under the
route's root). -/
def handleFileUpload (w : World) (req : HttpRequest) (route : RouteConfig) :
    Except ServerError HttpResponse :=
  match route.root with
  | none => .error (.Config ("Upload route has no root directory".toList))
  | some uploadPath =>
    let filename := "upload_".toList ++ natToStr w.now ++ ".bin".toList
    let filePath := pathPush uploadPath filename
    if w.writeOk filePath req.body then
      .ok (HttpResponse.text w.now .Created
        ("File uploaded successfully: ".toList ++ filePath))
    else .error (.Http ("Failed to save uploaded file".toList))

/-- `MethodHandler::handle_post`. -/
def handlePost (w : World) (cfg : Config) (req : HttpRequest)
    (route : RouteConfig) : Except ServerError HttpResponse :=
  if route.cgi.isSome then handleCgi w cfg req route
  else if route.upload_enabled then handleFileUpload w req route
  else .ok (HttpResponse.text w.now .Ok ("POST request received".toList))

/-- `MethodHandler::handle_delete`. -/
def handleDelete (w : World) (cfg : Config) (req : HttpRequest)
    (route : RouteConfig) : Except ServerError HttpResponse :=
  let em := errorManagerFromConfig cfg
  match route.root with
  | none => .error (.Config ("Route has no root directory".toList))
  | some root =>
    match resolvePath w root req.path route.path with
    | .error e => .error e
    | .ok filePath =>
      if ¬ w.pathExists filePath then
        .ok (em.generateErrorResponse w .NotFound (some ("File not found".toList)))
      else if ¬ route.upload_enabled then
        .ok (em.generateErrorResponse w .Forbidden
          (some ("Deletion not allowed in this directory".toList)))
      else if w.removeOk filePath then .ok (HttpResponse.text w.now .NoContent [])
      else
        .ok (em.generateErrorResponse w .InternalServerError
          (some ("Failed to delete file".toList)))

/-- `MethodHandler::handle_head`: GET, then clear the body and force
`Content-Length: 0`. -/
def handleHead (w : World) (cfg : Config) (req : HttpRequest)
    (route : RouteConfig) : Except ServerError HttpResponse :=
  match handleGet w cfg req route with
  | .error e => .error e
  | .ok r =>
    .ok (({ r with body := [] } : HttpResponse).addHeader
      ("Content-Length".toList) ("0".toList))

/-- `MethodHandler::handle_request` after the body-size gate: method
allow-list, then per-method dispatch.  (Factored out of the source's
single function so the size boundary can be stated.) -/
def handleRequestPostSize (w : World) (cfg : Config) (req : HttpRequest)
    (route : RouteConfig) : Except ServerError HttpResponse :=
  let em := errorManagerFromConfig cfg
  if ¬ route.methods.contains req.method.asStr then
    .ok (em.generateErrorResponse w .MethodNotAllowed
      (some ("Method ".toList ++ req.method.asStr ++ " not allowed for this route".toList)))
  else
    match req.method with
    | .GET => handleGet w cfg req route
    | .POST => handlePost w cfg req route
    | .DELETE => handleDelete w cfg req route
    | .HEAD => handleHead w cfg req route
    | m =>
      .ok (em.generateErrorResponse w .MethodNotAllowed
        (some ("Method ".toList ++ m.asStr ++ " not implemented".toList)))

/-- The 413 response of the body-size gate. -/
def bodyTooLargeResponse (w : World) (cfg : Config) (bodyLen maxBody : Nat) :
    HttpResponse :=
  (errorManagerFromConfig cfg).generateErrorResponse w .RequestEntityTooLarge
    (some ("Request body size (".toList ++ natToStr bodyLen ++
      " bytes) exceeds limit (".toList ++ natToStr maxBody ++ " bytes)".toList))

/-- `MethodHandler::handle_request`: route lookup, body-size gate, method
gate, dispatch. -/
def handleRequest (w : World) (cfg : Config) (req : HttpRequest) :
    Except ServerError HttpResponse :=
  match findRoute cfg (req.getHeader ("host".toList)) req.path with
  | .error e => .error e
  | .ok (server, route) =>
    if server.max_body_size < req.body.length then
      .ok (bodyTooLargeResponse w cfg req.body.length server.max_body_size)
    else handleRequestPostSize w cfg req route

/- ---------------------------------------------------------------------
   src/server/core.rs — request processing and error responses as sent on
   a connection.
--------------------------------------------------------------------- -/

/-- `Server::process_http_request` composed with `Server::send_response`:
dispatcher errors collapse to a canonical 500 page, and the
`Connection` header is set from the request's keep-alive attribute just
before wire encoding. -/
def processHttpRequest (w : World) (cfg : Config) (req : HttpRequest) : HttpResponse :=
  let response :=
    match handleRequest w cfg req with
    | .ok r => r
    | .error _ =>
      (errorManagerFromConfig cfg).generateErrorResponse w .InternalServerError
        (some ("Internal server error".toList))
  response.setKeepAlive req.keepAlive

/-- `Server::send_error_response` as invoked on a parse failure in
`Server::handle_read` (`BadRequest`, keep-alive forced off). -/
def badRequestResponse (w : World) (cfg : Config) : HttpResponse :=
  ((errorManagerFromConfig cfg).generateErrorResponse w .BadRequest
    (some ("Invalid HTTP request".toList))).setKeepAlive false

/-- The observable outcome of the parse step in `Server::handle_read`. -/
inductive ReadOutcome : Type
  | completed (req : HttpRequest) (consumed : Nat)
  | needMore (consumed : Nat)
  | badRequest
deriving Repr, DecidableEq

/-- The parse dispatch of `Server::handle_read`: a completed request goes
to `process_http_request`, need-more-data waits, and a parse error is
answered with the `BadRequest` error response. -/
def handleReadParse (p : HttpRequestParser) (data : Bytes) :
    ReadOutcome × HttpRequestParser :=
  match p.parse data with
  | .ok (some req, consumed, p2) => (.completed req consumed, p2)
  | .ok (none, consumed, p2) => (.needMore consumed, p2)
  | .error _ => (.badRequest, p)

/- ---------------------------------------------------------------------
   src/utils/buffer.rs and src/server/connection.rs — buffers and the
   per-connection keep-alive transition.
--------------------------------------------------------------------- -/

/-- `Buffer`. -/
structure Buffer : Type where
  data : Bytes
  read_pos : Nat
  write_pos : Nat
deriving Repr, DecidableEq

/-- `Buffer::new`. -/
def Buffer.new (capacity : Nat) : Buffer :=
  { data := List.replicate capacity 0, read_pos := 0, write_pos := 0 }

/-- `Buffer::readable_data`. -/
def Buffer.readableData (b : Buffer) : Bytes :=
  (b.data.take b.write_pos).drop b.read_pos

/-- `Buffer::readable_bytes`. -/
def Buffer.readableBytes (b : Buffer) : Nat :=
  b.write_pos - b.read_pos

/-- `Buffer::is_empty`. -/
def Buffer.isEmpty (b : Buffer) : Bool :=
  b.readableBytes = 0

/-- `Buffer::clear`. -/
def Buffer.clear (b : Buffer) : Buffer :=
  { b with read_pos := 0, write_pos := 0 }

/-- `Buffer::consume`. -/
def Buffer.consume (b : Buffer) (bytes : Nat) : Buffer :=
  let readPos := min (b.read_pos + bytes) b.write_pos
  if readPos = b.write_pos then { b with read_pos := 0, write_pos := 0 }
  else { b with read_pos := readPos }

/-- `Buffer::advance_write`. -/
def Buffer.advanceWrite (b : Buffer) (bytes : Nat) : Buffer :=
  { b with write_pos := min (b.write_pos + bytes) b.data.length }

/-- `Buffer::ensure_writable_space`: compact, then grow geometrically. -/
def Buffer.ensureWritableSpace (b : Buffer) (needed : Nat) : Buffer :=
  if b.data.length - b.write_pos < needed then
    let b :=
      if 0 < b.read_pos then
        { data :=
            ((b.data.drop b.read_pos).take (b.write_pos - b.read_pos)) ++
              b.data.drop (b.write_pos - b.read_pos)
          read_pos := 0
          write_pos := b.write_pos - b.read_pos }
      else b
    if b.data.length - b.write_pos < needed then
      let newSize := max (b.data.length * 2) (b.data.length + needed)
      { b with data := b.data ++ List.replicate (newSize - b.data.length) 0 }
    else b
  else b

/-- `Buffer::append`. -/
def Buffer.append (b : Buffer) (d : Bytes) : Buffer :=
  let b := b.ensureWritableSpace d.length
  let b := { b with data := b.data.take b.write_pos ++ d ++ b.data.drop (b.write_pos + d.length) }
  b.advanceWrite d.length

/-- `ConnectionState` (src/server/connection.rs). -/
inductive ConnectionState : Type
  | Reading | Writing | KeepAlive | Closed
deriving Repr, DecidableEq

/-- `Connection` (the `last_activity` instant is a `Nat` clock). -/
structure Connection : Type where
  fd : Int
  state : ConnectionState
  read_buffer : Buffer
  write_buffer : Buffer
  last_activity : Nat
  keep_alive : Bool
  request_count : Nat
  httpParser : HttpRequestParser
deriving Repr, DecidableEq

/-- `Connection::new`. -/
def Connection.new (now : Nat) (fd : Int) : Connection :=
  { fd := fd
    state := .Reading
    read_buffer := Buffer.new 8192
    write_buffer := Buffer.new 8192
    last_activity := now
    keep_alive := false
    request_count := 0
    httpParser := HttpRequestParser.new }

/-- `Connection::touch`. -/
def Connection.touch (c : Connection) (now : Nat) : Connection :=
  { c with last_activity := now }

/-- `Connection::reset_for_keep_alive`: clear both buffers, return to
`Reading`, bump the request count, reset the parser, touch. -/
def Connection.resetForKeepAlive (c : Connection) (now : Nat) : Connection :=
  { c with
    read_buffer := c.read_buffer.clear
    write_buffer := c.write_buffer.clear
    state := .Reading
    request_count := c.request_count + 1
    httpParser := c.httpParser.reset
    last_activity := now }

/-- `Server::handle_write` after `write_to_fd` reported `bytesWritten`
bytes written: drain the write buffer, and on completion either reset for
keep-alive (`some`) or close the connection (`none`). -/
def handleWriteStep (c : Connection) (now bytesWritten : Nat) : Option Connection :=
  let c := c.touch now
  let c := { c with write_buffer := c.write_buffer.consume bytesWritten }
  if c.write_buffer.isEmpty then
    if c.keep_alive then some (c.resetForKeepAlive now)
    else none
  else some c

/- ---------------------------------------------------------------------
   Claim theorems: the router (C7).
--------------------------------------------------------------------- -/

theorem findBestRouteAux_spec (path : Str) :
    ∀ (routes : List RouteConfig) (best : Option RouteConfig) (bestLen : Nat)
      (r : RouteConfig),
      (∀ b, best = some b → pathMatchesRoute path b.path = true ∧ bestLen = b.path.length) →
      findBestRouteAux path routes best bestLen = some r →
      pathMatchesRoute path r.path = true ∧ bestLen ≤ r.path.length ∧
        ∀ r' ∈ routes, pathMatchesRoute path r'.path = true →
          r'.path.length ≤ r.path.length := by
  intro routes
  induction routes with
  | nil =>
    intro best bestLen r hinv h
    simp only [findBestRouteAux] at h
    obtain ⟨hm, hl⟩ := hinv r h
    exact ⟨hm, by omega, by simp⟩
  | cons route rest ih =>
    intro best bestLen r hinv h
    simp only [findBestRouteAux] at h
    by_cases hc : pathMatchesRoute path route.path = true ∧ bestLen < route.path.length
    · rw [if_pos hc] at h
      obtain ⟨hm, hle, hall⟩ := ih (some route) route.path.length r
        (by intro b hb; cases hb; exact ⟨hc.1, rfl⟩) h
      refine ⟨hm, by omega, ?_⟩
      intro r' hmem hm'
      rcases List.mem_cons.mp hmem with hr' | hr'
      · subst hr'; omega
      · exact hall r' hr' hm'
    · rw [if_neg hc] at h
      obtain ⟨hm, hle, hall⟩ := ih best bestLen r hinv h
      refine ⟨hm, hle, ?_⟩
      intro r' hmem hm'
      rcases List.mem_cons.mp hmem with hr' | hr'
      · subst hr'
        have : ¬ bestLen < r'.path.length := fun hlt => hc ⟨hm', hlt⟩
        omega
      · exact hall r' hr' hm'

/-- C7: the router selects a matching route of maximal path length; in
particular when two routes match and one is strictly longer, the shorter
one is never selected. -/
theorem router_longest_prefix_wins (server : ServerConfig) (path : Str)
    (r : RouteConfig) (h : findBestRoute server path = .ok r) :
    pathMatchesRoute path r.path = true ∧
      (∀ r' ∈ server.routes, pathMatchesRoute path r'.path = true →
        r'.path.length ≤ r.path.length) ∧
      ∀ r1 ∈ server.routes, ∀ r2 ∈ server.routes,
        pathMatchesRoute path r1.path = true → pathMatchesRoute path r2.path = true →
        r2.path.length < r1.path.length → r ≠ r2 := by
  simp only [findBestRoute] at h
  cases haux : findBestRouteAux path server.routes none 0 with
  | none => rw [haux] at h; exact absurd h (by simp)
  | some r0 =>
    rw [haux] at h
    simp only [Except.ok.injEq] at h
    subst h
    obtain ⟨hm, _, hall⟩ := findBestRouteAux_spec path server.routes none 0 r0
      (by intro b hb; cases hb) haux
    refine ⟨hm, hall, ?_⟩
    intro r1 h1 r2 h2 hm1 hm2 hlt heq
    subst heq
    have := hall r1 h1 hm1
    omega

/-- A static-file route on `/`, used by concrete scenarios. -/
def routeSlash : RouteConfig :=
  { path := "/".toList
    methods := ["GET".toList, "POST".toList]
    redirect := none
    root := some ("www".toList)
    index := some ("index.html".toList)
    cgi := none
    directory_listing := false
    upload_enabled := false }

/-- An API route on `/api/`, used by concrete scenarios. -/
def routeApi : RouteConfig :=
  { path := "/api/".toList
    methods := ["GET".toList, "POST".toList]
    redirect := none
    root := none
    index := none
    cgi := some ("python3".toList)
    directory_listing := false
    upload_enabled := false }

/-- A binding holding the two demo routes. -/
def demoServer : ServerConfig :=
  { host := "127.0.0.1".toList
    ports := [8080]
    server_name := some ("localhost".toList)
    error_pages := []
    max_body_size := 1048576
    routes := [routeSlash, routeApi] }

/-- An inert world: every filesystem query fails. -/
def emptyWorld : World :=
  { now := 0
    canonicalize := fun _ => none
    readToString := fun _ => none
    readFile := fun _ => none
    pathExists := fun _ => false
    isFile := fun _ => false
    isDir := fun _ => false
    readDir := fun _ => none
    modifiedTime := fun _ => none
    writeOk := fun _ _ => false
    removeOk := fun _ => false
    mimeDetect := fun _ => "application/octet-stream".toList
    cgiRun := fun _ _ _ => .nonZeroExit }

/-- C7 witness: with routes `/` and `/api/` both matching `/api/test`, the
router picks `/api/`, and `/`'s length is dominated. -/
theorem router_longest_prefix_wins_witness :
    pathMatchesRoute ("/api/test".toList) routeApi.path = true ∧
      routeSlash.path.length ≤ routeApi.path.length :=
  let h := router_longest_prefix_wins demoServer ("/api/test".toList) routeApi (by rfl)
  ⟨h.1, h.2.1 routeSlash (by decide) (by decide)⟩

/- ---------------------------------------------------------------------
   Claim theorems: error mapping and body-size gate (C4, C5, C8).
--------------------------------------------------------------------- -/

theorem status_addHeader (r : HttpResponse) (n v : Str) :
    (r.addHeader n v).status = r.status := rfl

theorem status_setKeepAlive (r : HttpResponse) (ka : Bool) :
    (r.setKeepAlive ka).status = r.status := by
  cases ka <;> rfl

theorem status_generateErrorResponse (em : ErrorPageManager) (w : World)
    (s : HttpStatus) (m : Option Str) :
    (em.generateErrorResponse w s m).status = s := rfl

theorem findBestRouteAux_no_match (path : Str) (routes : List RouteConfig)
    (h : ∀ r ∈ routes, pathMatchesRoute path r.path = false) :
    ∀ best bestLen, findBestRouteAux path routes best bestLen = best := by
  induction routes with
  | nil => intro best bestLen; rfl
  | cons route rest ih =>
    intro best bestLen
    have hr : pathMatchesRoute path route.path = false := h route (by simp)
    simp only [findBestRouteAux, hr]
    simp only [Bool.false_eq_true, false_and, if_false]
    exact ih (fun r hm => h r (by simp [hm])) best bestLen

/-- C4: (amended) a request whose decoded path no route of the selected
binding matches is answered with status 500 InternalServerError: the
route-miss error from `find_best_route` propagates to
`process_http_request`'s catch-all arm, not to a 404 page. -/
theorem route_miss_yields_500 (w : World) (cfg : Config) (req : HttpRequest)
    (server : ServerConfig)
    (hs : findServer cfg.servers (req.getHeader ("host".toList)) = .ok server)
    (hmiss : ∀ r ∈ server.routes, pathMatchesRoute req.path r.path = false) :
    (processHttpRequest w cfg req).status = .InternalServerError := by
  have hbest : findBestRoute server req.path =
      .error (.Http ("No matching route found".toList)) := by
    simp [findBestRoute, findBestRouteAux_no_match req.path server.routes hmiss]
  have hroute : findRoute cfg (req.getHeader ("host".toList)) req.path =
      .error (.Http ("No matching route found".toList)) := by
    simp only [findRoute, hs, hbest]
  have hreq : handleRequest w cfg req =
      .error (.Http ("No matching route found".toList)) := by
    simp only [handleRequest, hroute]
  simp only [processHttpRequest, hreq, status_setKeepAlive, status_generateErrorResponse]

/-- A config whose only binding has just the `/api/` route. -/
def cfgApiOnly : Config :=
  { servers := [{ demoServer with routes := [routeApi] }] }

/-- A GET request for `/zzz` (no matching route in `cfgApiOnly`). -/
def reqMiss : HttpRequest :=
  { HttpRequest.new with path := "/zzz".toList }

/-- C4 counterexample: the claim predicts 404 for a route miss, but the
server answers 500. -/
theorem route_miss_counterexample :
    (processHttpRequest emptyWorld cfgApiOnly reqMiss).status = .InternalServerError ∧
      ¬ (processHttpRequest emptyWorld cfgApiOnly reqMiss).status = .NotFound := by
  constructor
  · rfl
  · decide

/-- C4 witness for the amended claim. -/
theorem route_miss_yields_500_witness :
    (processHttpRequest emptyWorld cfgApiOnly reqMiss).status = .InternalServerError :=
  route_miss_yields_500 emptyWorld cfgApiOnly reqMiss
    { demoServer with routes := [routeApi] } (by rfl) (by decide)


/-- C5: (amended) when the canonicalized resolved path escapes the
canonicalized root, the traversal error from `resolve_path` propagates to
`process_http_request`'s catch-all arm: the response status is 500
InternalServerError, not 403 Forbidden. -/
theorem traversal_yields_500 (w : World) (cfg : Config) (req : HttpRequest)
    (server : ServerConfig) (route : RouteConfig) (root cr cp : Str)
    (hroute : findRoute cfg (req.getHeader ("host".toList)) req.path = .ok (server, route))
    (hsize : req.body.length ≤ server.max_body_size)
    (hmethod : req.method = .GET)
    (hallowed : route.methods.contains req.method.asStr = true)
    (hredir : route.redirect = none)
    (hcgi : route.cgi = none)
    (hroot : route.root = some root)
    (hcr : w.canonicalize root = some cr)
    (hcp : w.canonicalize (resolvedFullPath root req.path route.path) = some cp)
    (hesc : pathStartsWith cp cr = false) :
    (processHttpRequest w cfg req).status = .InternalServerError := by
  have hres : resolvePath w root req.path route.path =
      .error (.Http ("Path traversal attempt detected".toList)) := by
    simp only [resolvePath, hcr, hcp, hesc]
    simp
  have hget : handleGet w cfg req route =
      .error (.Http ("Path traversal attempt detected".toList)) := by
    simp only [handleGet, hredir, hcgi, hroot, hres, Option.isSome_none,
      Bool.false_eq_true, if_false]
  have hallowed2 : route.methods.contains HttpMethod.GET.asStr = true := by
    rw [hmethod] at hallowed
    exact hallowed
  have hpost : handleRequestPostSize w cfg req route =
      .error (.Http ("Path traversal attempt detected".toList)) := by
    simp only [handleRequestPostSize, hmethod, hallowed2, hget, Bool.not_true,
      Bool.false_eq_true, if_false]
    simp
  have hreq : handleRequest w cfg req =
      .error (.Http ("Path traversal attempt detected".toList)) := by
    simp only [handleRequest, hroute, Nat.not_lt.mpr hsize, if_false, hpost]
  simp only [processHttpRequest, hreq, status_setKeepAlive, status_generateErrorResponse]

/-- A world in which `www/../etc/passwd` canonicalizes outside the
canonical root of `www`. -/
def c5World : World :=
  { emptyWorld with
    canonicalize := fun p =>
      if p = "www".toList then some ("/srv/www".toList)
      else if p = "www/../etc/passwd".toList then some ("/etc/passwd".toList)
      else none }

/-- A config whose only binding has just the `/` static route. -/
def cfgSlashOnly : Config :=
  { servers := [{ demoServer with routes := [routeSlash] }] }

/-- A GET request whose target climbs out of the root. -/
def reqTraversal : HttpRequest :=
  { HttpRequest.new with path := "/../etc/passwd".toList }

/-- C5 counterexample: the claim predicts 403 for a traversal attempt, but
the server answers 500. -/
theorem traversal_counterexample :
    (processHttpRequest c5World cfgSlashOnly reqTraversal).status = .InternalServerError ∧
      ¬ (processHttpRequest c5World cfgSlashOnly reqTraversal).status = .Forbidden := by
  constructor
  · rfl
  · decide

/-- C5 witness for the amended claim. -/
theorem traversal_yields_500_witness :
    (processHttpRequest c5World cfgSlashOnly reqTraversal).status = .InternalServerError :=
  traversal_yields_500 c5World cfgSlashOnly reqTraversal
    { demoServer with routes := [routeSlash] } routeSlash
    ("www".toList) ("/srv/www".toList) ("/etc/passwd".toList)
    (by rfl) (by decide) rfl (by decide) rfl rfl rfl (by decide) (by decide) (by decide)

/-- C8: the body-size gate fires exactly on strict excess: a strictly
oversized body yields the canonical 413 response, while a body within the
limit leaves the dispatcher on its post-size path (it is not rejected for
size). -/
theorem body_size_gate (w : World) (cfg : Config) (req : HttpRequest)
    (server : ServerConfig) (route : RouteConfig)
    (hroute : findRoute cfg (req.getHeader ("host".toList)) req.path = .ok (server, route)) :
    (server.max_body_size < req.body.length →
      handleRequest w cfg req =
          .ok (bodyTooLargeResponse w cfg req.body.length server.max_body_size) ∧
        (processHttpRequest w cfg req).status = .RequestEntityTooLarge) ∧
    (req.body.length ≤ server.max_body_size →
      handleRequest w cfg req = handleRequestPostSize w cfg req route) := by
  constructor
  · intro hlt
    have h1 : handleRequest w cfg req =
        .ok (bodyTooLargeResponse w cfg req.body.length server.max_body_size) := by
      simp only [handleRequest, hroute, hlt, if_true]
    refine ⟨h1, ?_⟩
    simp only [processHttpRequest, h1, status_setKeepAlive, bodyTooLargeResponse,
      status_generateErrorResponse]
  · intro hle
    simp only [handleRequest, hroute, Nat.not_lt.mpr hle, if_false]

/-- A POST-only route under a small body limit. -/
def routePost : RouteConfig :=
  { path := "/".toList
    methods := ["POST".toList]
    redirect := none
    root := some ("www".toList)
    index := none
    cgi := none
    directory_listing := false
    upload_enabled := false }

/-- A binding with `max_body_size = 4`. -/
def cfgSmallBody : Config :=
  { servers := [{ demoServer with max_body_size := 4, routes := [routePost] }] }

/-- A POST with a 4-byte body (exactly at the limit). -/
def reqAtLimit : HttpRequest :=
  { HttpRequest.new with method := .POST, body := [48, 48, 48, 48] }

/-- A POST with a 5-byte body (one byte over the limit). -/
def reqOverLimit : HttpRequest :=
  { HttpRequest.new with method := .POST, body := [48, 48, 48, 48, 48] }

/-- C8 witness: at the limit the request dispatches normally (and ends in
200); one byte over, it is rejected with 413. -/
theorem body_size_gate_witness :
    (processHttpRequest emptyWorld cfgSmallBody reqOverLimit).status = .RequestEntityTooLarge ∧
      handleRequest emptyWorld cfgSmallBody reqAtLimit =
        handleRequestPostSize emptyWorld cfgSmallBody reqAtLimit routePost ∧
      (processHttpRequest emptyWorld cfgSmallBody reqAtLimit).status = .Ok :=
  ⟨((body_size_gate emptyWorld cfgSmallBody reqOverLimit
      { demoServer with max_body_size := 4, routes := [routePost] } routePost
      (by rfl)).1 (by decide)).2,
    (body_size_gate emptyWorld cfgSmallBody reqAtLimit
      { demoServer with max_body_size := 4, routes := [routePost] } routePost
      (by rfl)).2 (by decide),
    by rfl⟩

/- ---------------------------------------------------------------------
   Header-map lemmas, and claim theorems for CGI output parsing (C9).
--------------------------------------------------------------------- -/

/-- Number of headers carrying exactly the key `k`. -/
def countKey (m : List (Str × Str)) (k : Str) : Nat :=
  (m.filter (fun p => p.1 = k)).length

theorem mapFind_mapInsert_self (m : List (Str × Str)) (k v : Str) :
    mapFind (mapInsert m k v) k = some v := by
  simp only [mapInsert]
  by_cases hany : m.any (fun p => p.1 = k) = true
  · rw [if_pos hany]
    induction m with
    | nil => simp at hany
    | cons p t ih =>
      simp only [List.map_cons, mapFind, List.find?_cons]
      by_cases hp : p.1 = k
      · simp [hp]
      · simp only [if_neg hp]
        have ht : t.any (fun p => p.1 = k) = true := by
          simp only [List.any_cons] at hany
          rcases Bool.or_eq_true_iff.mp hany with h | h
          · exact absurd (by simpa using h) hp
          · exact h
        have := ih ht
        simp only [mapFind] at this
        simpa [hp] using this
  · rw [if_neg hany]
    have hnone : m.find? (fun p => decide (p.1 = k)) = none := by
      rw [List.find?_eq_none]
      intro x hx
      simp only [decide_eq_true_eq]
      intro hxk
      exact hany (List.any_eq_true.mpr ⟨x, hx, by simpa using hxk⟩)
    simp [mapFind, List.find?_append, hnone]

theorem find?_map_replace_ne (t : List (Str × Str)) (k' v k : Str) (h : ¬ k' = k) :
    (t.map (fun p => if p.1 = k' then (k', v) else p)).find? (fun p => decide (p.1 = k)) =
      t.find? (fun p => decide (p.1 = k)) := by
  induction t with
  | nil => rfl
  | cons p t ih =>
    simp only [List.map_cons, List.find?_cons]
    by_cases hp : p.1 = k'
    · rw [if_pos hp]
      have h2 : ¬ p.1 = k := by rw [hp]; exact h
      have e1 : decide ((k', v).1 = k) = false := by simp [h]
      have e2 : decide (p.1 = k) = false := by simp [h2]
      rw [e1, e2]
      exact ih
    · rw [if_neg hp]
      cases e : decide (p.1 = k) with
      | true => rfl
      | false => exact ih

theorem mapFind_mapInsert_ne (m : List (Str × Str)) (k v k' : Str) (h : ¬ k' = k) :
    mapFind (mapInsert m k' v) k = mapFind m k := by
  simp only [mapInsert]
  by_cases hany : m.any (fun p => p.1 = k') = true
  · rw [if_pos hany]
    simp only [mapFind]
    rw [find?_map_replace_ne m k' v k h]
  · rw [if_neg hany]
    simp only [mapFind, List.find?_append]
    cases hf : m.find? (fun p => decide (p.1 = k)) with
    | some p => simp
    | none => simp [h]


theorem countKey_filter_map_replace (m : List (Str × Str)) (k v : Str) :
    ((m.map (fun p => if p.1 = k then (k, v) else p)).filter (fun p => p.1 = k)).length =
      (m.filter (fun p => p.1 = k)).length := by
  induction m with
  | nil => rfl
  | cons p t ih =>
    simp only [List.map_cons, List.filter_cons]
    by_cases hp : p.1 = k
    · rw [if_pos hp]
      have e1 : (decide ((k, v).1 = k)) = true := by simp
      have e2 : (decide (p.1 = k)) = true := by simp [hp]
      rw [e1, e2]
      simpa using ih
    · rw [if_neg hp]
      cases e : decide (p.1 = k) with
      | true => simp at e; exact absurd e hp
      | false => exact ih

theorem countKey_filter_map_replace_ne (m : List (Str × Str)) (k' v k : Str)
    (h : ¬ k' = k) :
    ((m.map (fun p => if p.1 = k' then (k', v) else p)).filter (fun p => p.1 = k)).length =
      (m.filter (fun p => p.1 = k)).length := by
  induction m with
  | nil => rfl
  | cons p t ih =>
    simp only [List.map_cons, List.filter_cons]
    by_cases hp : p.1 = k'
    · rw [if_pos hp]
      have h2 : ¬ p.1 = k := by rw [hp]; exact h
      have e1 : (decide ((k', v).1 = k)) = false := by simp [h]
      have e2 : (decide (p.1 = k)) = false := by simp [h2]
      rw [e1, e2]
      exact ih
    · rw [if_neg hp]
      cases e : decide (p.1 = k) with
      | true => simpa using ih
      | false => exact ih

theorem countKey_pos_of_any (m : List (Str × Str)) (k : Str)
    (h : m.any (fun p => p.1 = k) = true) : 1 ≤ countKey m k := by
  induction m with
  | nil => simp at h
  | cons p t ih =>
    simp only [List.any_cons, Bool.or_eq_true_iff] at h
    simp only [countKey, List.filter_cons]
    rcases h with h | h
    · have e : (decide (p.1 = k)) = true := by simpa using h
      rw [e]
      simp
    · cases e : decide (p.1 = k) with
      | true => simp
      | false => simpa [countKey] using ih h

theorem countKey_zero_of_not_any (m : List (Str × Str)) (k : Str)
    (h : ¬ m.any (fun p => p.1 = k) = true) : countKey m k = 0 := by
  simp only [countKey, List.length_eq_zero, List.filter_eq_nil_iff]
  intro p hp
  simp only [decide_eq_true_eq]
  intro hk
  exact h (List.any_eq_true.mpr ⟨p, hp, by simpa using hk⟩)

theorem countKey_mapInsert_self (m : List (Str × Str)) (k v : Str)
    (hm : countKey m k ≤ 1) : countKey (mapInsert m k v) k = 1 := by
  simp only [mapInsert]
  by_cases hany : m.any (fun p => p.1 = k) = true
  · rw [if_pos hany]
    have h1 := countKey_pos_of_any m k hany
    have h2 := countKey_filter_map_replace m k v
    simp only [countKey] at h1 hm ⊢
    omega
  · rw [if_neg hany]
    have h0 := countKey_zero_of_not_any m k hany
    simp only [countKey] at h0 ⊢
    rw [List.filter_append, List.length_append, h0]
    simp

theorem countKey_mapInsert_ne (m : List (Str × Str)) (k' v k : Str) (h : ¬ k' = k) :
    countKey (mapInsert m k' v) k = countKey m k := by
  simp only [mapInsert]
  by_cases hany : m.any (fun p => p.1 = k') = true
  · rw [if_pos hany]
    exact countKey_filter_map_replace_ne m k' v k h
  · rw [if_neg hany]
    simp only [countKey, List.filter_append, List.length_append]
    have : ((([(k', v)] : List (Str × Str))).filter (fun p => p.1 = k)).length = 0 := by
      simp [h]
    omega


theorem mapFind_ct_html (now : Nat) (s : HttpStatus) (h : Str) :
    mapFind (HttpResponse.html now s h).headers ("Content-Type".toList) =
      some ("text/html; charset=utf-8".toList) := by
  simp only [HttpResponse.html, HttpResponse.setBodyString, HttpResponse.setBody,
    HttpResponse.setContentType, HttpResponse.addHeader]
  rw [mapFind_mapInsert_ne _ _ _ _ (by decide), mapFind_mapInsert_self]

/-- C9: CGI output with neither a `CRLF CRLF` nor an `LF LF` boundary
becomes, wholesale, the body of a `200 OK` `text/html` response; when a
boundary exists and the script set no `Content-Type`, the response's
`Content-Type` defaults to `text/html; charset=utf-8`. -/
theorem parse_cgi_output_spec (w : World) (out : Str) :
    ((findSeq out ("\r\n\r\n".toList) = none ∧ findSeq out ("\n\n".toList) = none) →
      parseCgiOutput w out = .ok (HttpResponse.html w.now .Ok out) ∧
        (HttpResponse.html w.now .Ok out).status = .Ok ∧
        mapFind (HttpResponse.html w.now .Ok out).headers ("Content-Type".toList) =
          some ("text/html; charset=utf-8".toList) ∧
        (HttpResponse.html w.now .Ok out).body = utf8Encode out) ∧
    (∀ he : Nat,
      (match findSeq out ("\r\n\r\n".toList) with
        | some pos => some (pos + 4)
        | none =>
          match findSeq out ("\n\n".toList) with
          | some pos => some (pos + 2)
          | none => none) = some he →
      ((strLines (out.take (he - 2))).foldl (cgiHeaderLine w)
          (HttpResponse.new w.now .Ok, false)).2 = false →
      parseCgiOutput w out =
          .ok ((((strLines (out.take (he - 2))).foldl (cgiHeaderLine w)
              (HttpResponse.new w.now .Ok, false)).1.setContentType
                ("text/html; charset=utf-8".toList)).setBodyString (out.drop he)) ∧
        mapFind ((((strLines (out.take (he - 2))).foldl (cgiHeaderLine w)
              (HttpResponse.new w.now .Ok, false)).1.setContentType
                ("text/html; charset=utf-8".toList)).setBodyString (out.drop he)).headers
            ("Content-Type".toList) =
          some ("text/html; charset=utf-8".toList)) := by
  constructor
  · rintro ⟨h1, h2⟩
    refine ⟨?_, rfl, mapFind_ct_html w.now .Ok out, rfl⟩
    simp only [parseCgiOutput, h1, h2]
  · intro he hend hflag
    have heq : parseCgiOutput w out =
        .ok ((((strLines (out.take (he - 2))).foldl (cgiHeaderLine w)
            (HttpResponse.new w.now .Ok, false)).1.setContentType
              ("text/html; charset=utf-8".toList)).setBodyString (out.drop he)) := by
      cases hf1 : findSeq out ("\r\n\r\n".toList) with
      | some pos =>
        rw [hf1] at hend
        simp only [Option.some.injEq] at hend
        subst hend
        simp only [parseCgiOutput, hf1, hflag, Bool.not_false, if_true]
        simp
      | none =>
        rw [hf1] at hend
        cases hf2 : findSeq out ("\n\n".toList) with
        | some pos =>
          rw [hf2] at hend
          simp only [Option.some.injEq] at hend
          subst hend
          simp only [parseCgiOutput, hf1, hf2, hflag, Bool.not_false, if_true]
          simp
        | none =>
          rw [hf2] at hend
          exact absurd hend (by simp)
    refine ⟨heq, ?_⟩
    simp only [HttpResponse.setBodyString, HttpResponse.setBody,
      HttpResponse.setContentType, HttpResponse.addHeader]
    rw [mapFind_mapInsert_ne _ _ _ _ (by decide), mapFind_mapInsert_self]

/-- C9 witness: a body-only output, and a headers-without-content-type
output. -/
theorem parse_cgi_output_spec_witness :
    parseCgiOutput emptyWorld ("Hello World".toList) =
        .ok (HttpResponse.html emptyWorld.now .Ok ("Hello World".toList)) ∧
      mapFind (((((strLines (("X-Foo: bar\n\nbody".toList).take (12 - 2))).foldl
            (cgiHeaderLine emptyWorld) (HttpResponse.new emptyWorld.now .Ok, false)).1.setContentType
              ("text/html; charset=utf-8".toList)).setBodyString
            (("X-Foo: bar\n\nbody".toList).drop 12)).headers) ("Content-Type".toList) =
        some ("text/html; charset=utf-8".toList) :=
  ⟨((parse_cgi_output_spec emptyWorld ("Hello World".toList)).1 (by decide)).1,
    ((parse_cgi_output_spec emptyWorld ("X-Foo: bar\n\nbody".toList)).2 12
      (by decide) (by decide)).2⟩

/- ---------------------------------------------------------------------
   Claim theorems: URL decoding (C2).
--------------------------------------------------------------------- -/

deriving instance DecidableEq for Except

/-- C2 counterexample: a `+` in the path component does not survive
decoding — `GET /a+b` parses to path `/a b`, contradicting the claim that
`+` maps to space only within the query string and never within the
path. -/
theorem plus_decoded_in_path_counterexample :
    (match HttpRequestParser.parse HttpRequestParser.new
        (asciiBytes "GET /a+b HTTP/1.1\r\nHost: a\r\n\r\n") with
      | .ok (some r, _, _) => some r.path
      | _ => none) = some ("/a b".toList) ∧
      ¬ ("/a b".toList = "/a+b".toList) := by
  constructor
  · decide
  · decide

theorem urlDecode_plus (rest : Str) :
    urlDecode ('+' :: rest) = (urlDecode rest).map (fun s => ' ' :: s) := by
  cases h : urlDecode rest <;> simp [urlDecode, h, Except.map]

theorem urlDecode_other (c : Char) (rest : Str) (h1 : ¬ c = '%') (h2 : ¬ c = '+') :
    urlDecode (c :: rest) = (urlDecode rest).map (fun s => c :: s) := by
  cases h : urlDecode rest <;> simp [urlDecode, h, h1, h2, Except.map]

theorem urlDecode_escape (h1 h2 : Char) (rest : Str)
    (hh1 : isHexDigit h1 = true) (hh2 : isHexDigit h2 = true) :
    urlDecode ('%' :: h1 :: h2 :: rest) =
      (urlDecode rest).map (fun s => Char.ofNat (hexVal h1 * 16 + hexVal h2) :: s) := by
  have hne1 : ¬ h1 = '+' := by rintro rfl; simp [isHexDigit] at hh1
  have hne2 : ¬ h1 = '-' := by rintro rfl; simp [isHexDigit] at hh1
  have hfs : fromStrRadix16 h1 h2 = some (hexVal h1 * 16 + hexVal h2) := by
    simp [fromStrRadix16, hne1, hne2, hh1, hh2]
  cases h : urlDecode rest <;> simp [urlDecode, hfs, h, Except.map]

theorem urlDecode_bad_escape (h1 h2 : Char) (rest : Str)
    (hbad : fromStrRadix16 h1 h2 = none) :
    urlDecode ('%' :: h1 :: h2 :: rest) =
      .error (.Http ("Invalid URL encoding".toList)) := by
  simp [urlDecode, hbad]


/-- C2: (amended) percent-decoding maps `%HH` to the byte named by the two
hex digits; `'+'` becomes a space wherever it occurs — in the query string
AND in the path, which `parse_uri` also URL-decodes; an invalid escape is a
parse error, and `handle_read` answers any parse error with the
`BadRequest` error response. -/
theorem url_decode_rules :
    (∀ rest : Str, urlDecode ('+' :: rest) = (urlDecode rest).map (fun s => ' ' :: s)) ∧
    (∀ (h1 h2 : Char) (rest : Str), isHexDigit h1 = true → isHexDigit h2 = true →
      urlDecode ('%' :: h1 :: h2 :: rest) =
        (urlDecode rest).map (fun s => Char.ofNat (hexVal h1 * 16 + hexVal h2) :: s)) ∧
    (∀ (c : Char) (rest : Str), ¬ c = '%' → ¬ c = '+' →
      urlDecode (c :: rest) = (urlDecode rest).map (fun s => c :: s)) ∧
    (∀ (h1 h2 : Char) (rest : Str), fromStrRadix16 h1 h2 = none →
      urlDecode ('%' :: h1 :: h2 :: rest) = .error (.Http ("Invalid URL encoding".toList))) ∧
    (∀ (r : HttpRequest) (uri : Str), charIndexOf '?' uri = none →
      parseUri r uri =
        match urlDecode uri with
        | .ok d => .ok { r with path := d }
        | .error e => .error e) ∧
    (∀ (p : HttpRequestParser) (data : Bytes) (e : ServerError),
      HttpRequestParser.parse p data = .error e →
      handleReadParse p data = (.badRequest, p)) ∧
    (∀ (w : World) (cfg : Config), (badRequestResponse w cfg).status = .BadRequest) := by
  refine ⟨urlDecode_plus, urlDecode_escape, urlDecode_other, urlDecode_bad_escape, ?_, ?_, ?_⟩
  · intro r uri hq
    simp only [parseUri, hq]
    cases h : urlDecode uri with
    | ok d => simp [h]
    | error e => simp [h]
  · intro p data e h
    simp only [handleReadParse, h]
  · intro w cfg
    rfl

/-- C2 witness: concrete decodings, a rejected escape, and a concrete parse
failure answered as BadRequest. -/
theorem url_decode_rules_witness :
    urlDecode ("+a".toList) = (urlDecode ("a".toList)).map (fun s => ' ' :: s) ∧
      urlDecode ("%41".toList) =
        (urlDecode ([] : Str)).map (fun s => Char.ofNat (hexVal '4' * 16 + hexVal '1') :: s) ∧
      urlDecode ("%ZZ".toList) = .error (.Http ("Invalid URL encoding".toList)) ∧
      handleReadParse HttpRequestParser.new (asciiBytes "BAD\r\n\r\n") =
        (.badRequest, HttpRequestParser.new) ∧
      (badRequestResponse emptyWorld cfgApiOnly).status = .BadRequest :=
  ⟨url_decode_rules.1 ("a".toList),
    url_decode_rules.2.1 '4' '1' [] (by decide) (by decide),
    url_decode_rules.2.2.2.1 'Z' 'Z' [] (by decide),
    url_decode_rules.2.2.2.2.2.1 HttpRequestParser.new (asciiBytes "BAD\r\n\r\n")
      (.Http ("Invalid request line".toList)) (by decide),
    url_decode_rules.2.2.2.2.2.2 emptyWorld cfgApiOnly⟩

/- ---------------------------------------------------------------------
   Claim theorems: the keep-alive transition (C3).
--------------------------------------------------------------------- -/

/-- C3: (amended) when a response finishes writing and keep-alive holds,
the connection is reset for reuse: the parser returns to its initial state
and the connection to `Reading`, but BOTH buffers are cleared — bytes
already buffered past the previous request are discarded, not carried
forward. -/
theorem keep_alive_reset_clears (c : Connection) (now bytesWritten : Nat)
    (hdrain : (c.write_buffer.consume bytesWritten).isEmpty = true)
    (hka : c.keep_alive = true) :
    ∃ c', handleWriteStep c now bytesWritten = some c' ∧
      c'.read_buffer.readableData = [] ∧
      c'.write_buffer.readableData = [] ∧
      c'.state = ConnectionState.Reading ∧
      c'.httpParser = HttpRequestParser.new ∧
      c'.request_count = c.request_count + 1 := by
  simp only [handleWriteStep, Connection.touch, hdrain, hka, if_true]
  refine ⟨_, rfl, ?_, ?_, rfl, rfl, rfl⟩
  · simp [Connection.resetForKeepAlive, Buffer.clear, Buffer.readableData]
  · simp [Connection.resetForKeepAlive, Buffer.clear, Buffer.readableData]

/-- A connection that has finished writing response 1 while a second
pipelined request already sits in its read buffer (and in the parser's
internal buffer). -/
def pipelinedConn : Connection :=
  { fd := 7
    state := .Writing
    read_buffer :=
      { data := asciiBytes "GET /2 HTTP/1.1\r\nHost: a\r\n\r\n"
        read_pos := 0
        write_pos := 28 }
    write_buffer := { data := [], read_pos := 0, write_pos := 0 }
    last_activity := 0
    keep_alive := true
    request_count := 1
    httpParser :=
      { HttpRequestParser.new with
        buffer := asciiBytes "GET /2 HTTP/1.1\r\nHost: a\r\n\r\n" } }

/-- C3 counterexample: the buffered second request is NOT carried forward —
after the keep-alive transition both the connection's read buffer and the
parser's buffer are empty, so the already-received pipelined request is
lost instead of being parsed and answered. -/
theorem pipelined_bytes_discarded_counterexample :
    (handleWriteStep pipelinedConn 5 0).map (fun c => c.read_buffer.readableData) =
        some [] ∧
      pipelinedConn.read_buffer.readableData =
        asciiBytes "GET /2 HTTP/1.1\r\nHost: a\r\n\r\n" ∧
      ¬ (asciiBytes "GET /2 HTTP/1.1\r\nHost: a\r\n\r\n" = ([] : Bytes)) ∧
      (handleWriteStep pipelinedConn 5 0).map (fun c => c.httpParser.buffer) =
        some [] := by
  refine ⟨by decide, by decide, by decide, by decide⟩

/-- C3 witness for the amended claim, at the concrete pipelined
connection. -/
theorem keep_alive_reset_clears_witness :
    ∃ c', handleWriteStep pipelinedConn 5 0 = some c' ∧
      c'.read_buffer.readableData = [] ∧
      c'.write_buffer.readableData = [] ∧
      c'.state = ConnectionState.Reading ∧
      c'.httpParser = HttpRequestParser.new ∧
      c'.request_count = pipelinedConn.request_count + 1 :=
  keep_alive_reset_clears pipelinedConn 5 0 (by decide) (by decide)

/- ---------------------------------------------------------------------
   Claim theorems: the Content-Length discipline of emitted responses
   (C6).
--------------------------------------------------------------------- -/

/-- At most one header named exactly `Content-Length`. -/
def HdrOk (m : List (Str × Str)) : Prop :=
  countKey m ("Content-Length".toList) ≤ 1

/-- Exactly one `Content-Length` header, valued at the body's byte
length. -/
def CLInv (r : HttpResponse) : Prop :=
  countKey r.headers ("Content-Length".toList) = 1 ∧
    mapFind r.headers ("Content-Length".toList) = some (natToStr r.body.length)

theorem hdrOk_nil : HdrOk [] := by
  simp [HdrOk, countKey]

theorem hdrOk_insert (m : List (Str × Str)) (k v : Str) (h : HdrOk m) :
    HdrOk (mapInsert m k v) := by
  by_cases hk : k = ("Content-Length".toList)
  · subst hk
    simp only [HdrOk]
    rw [countKey_mapInsert_self m _ v h]
  · simp only [HdrOk]
    rw [countKey_mapInsert_ne m k v _ hk]
    exact h

theorem hdrOk_addHeader (r : HttpResponse) (n v : Str) (h : HdrOk r.headers) :
    HdrOk (r.addHeader n v).headers :=
  hdrOk_insert r.headers n v h

theorem hdrOk_new (now : Nat) (s : HttpStatus) : HdrOk (HttpResponse.new now s).headers :=
  hdrOk_addHeader _ _ _ (hdrOk_addHeader _ _ _ hdrOk_nil)

theorem clinv_hdrOk (r : HttpResponse) (h : CLInv r) : HdrOk r.headers := by
  simp only [HdrOk, h.1]
  omega

theorem clinv_setBody (r : HttpResponse) (b : Bytes) (h : HdrOk r.headers) :
    CLInv (r.setBody b) := by
  constructor
  · exact countKey_mapInsert_self r.headers _ _ h
  · exact mapFind_mapInsert_self r.headers _ _

theorem clinv_setBodyString (r : HttpResponse) (s : Str) (h : HdrOk r.headers) :
    CLInv (r.setBodyString s) :=
  clinv_setBody r (utf8Encode s) h

theorem clinv_addHeader (r : HttpResponse) (n v : Str)
    (hn : ¬ n = ("Content-Length".toList)) (h : CLInv r) :
    CLInv (r.addHeader n v) := by
  constructor
  · rw [show (r.addHeader n v).headers = mapInsert r.headers n v from rfl,
      countKey_mapInsert_ne r.headers n v _ hn]
    exact h.1
  · rw [show (r.addHeader n v).headers = mapInsert r.headers n v from rfl,
      mapFind_mapInsert_ne r.headers _ v _ hn]
    exact h.2

theorem clinv_setContentType (r : HttpResponse) (ct : Str) (h : CLInv r) :
    CLInv (r.setContentType ct) :=
  clinv_addHeader r _ ct (by decide) h

theorem clinv_setKeepAlive (r : HttpResponse) (ka : Bool) (h : CLInv r) :
    CLInv (r.setKeepAlive ka) := by
  cases ka
  · exact clinv_addHeader r _ _ (by decide) h
  · exact clinv_addHeader r _ _ (by decide) h

theorem clinv_html (now : Nat) (s : HttpStatus) (x : Str) :
    CLInv (HttpResponse.html now s x) :=
  clinv_setBodyString _ x (hdrOk_addHeader _ _ _ (hdrOk_new now s))

theorem clinv_text (now : Nat) (s : HttpStatus) (x : Str) :
    CLInv (HttpResponse.text now s x) :=
  clinv_setBodyString _ x (hdrOk_addHeader _ _ _ (hdrOk_new now s))

theorem clinv_json (now : Nat) (s : HttpStatus) (x : Str) :
    CLInv (HttpResponse.json now s x) :=
  clinv_setBodyString _ x (hdrOk_addHeader _ _ _ (hdrOk_new now s))

theorem clinv_file (now : Nat) (s : HttpStatus) (content : Bytes) (ct : Str) :
    CLInv (HttpResponse.file now s content ct) :=
  clinv_setBody _ content (hdrOk_addHeader _ _ _ (hdrOk_new now s))

theorem clinv_redirect (now : Nat) (loc : Str) (perm : Bool) :
    CLInv (HttpResponse.redirect now loc perm) := by
  refine clinv_setContentType _ _ ?_
  exact clinv_setBodyString _ _ (hdrOk_addHeader _ _ _ (hdrOk_new now _))

theorem clinv_error (now : Nat) (s : HttpStatus) (m : Option Str) :
    CLInv (HttpResponse.error now s m) :=
  clinv_html now s _

theorem clinv_generateErrorResponse (em : ErrorPageManager) (w : World)
    (s : HttpStatus) (m : Option Str) :
    CLInv (em.generateErrorResponse w s m) :=
  clinv_addHeader _ _ _ (by decide)
    (clinv_addHeader _ _ _ (by decide)
      (clinv_addHeader _ _ _ (by decide) (clinv_html _ s _)))

theorem clinv_addCachingHeaders (w : World) (r : HttpResponse) (fp : Str)
    (h : CLInv r) : CLInv (addCachingHeaders w r fp) := by
  simp only [addCachingHeaders]
  cases w.modifiedTime fp with
  | none => exact clinv_addHeader _ _ _ (by decide) h
  | some t =>
    exact clinv_addHeader _ _ _ (by decide) (clinv_addHeader _ _ _ (by decide) h)

theorem clinv_serveFile (w : World) (fp : Str) (r : HttpResponse)
    (h : serveFile w fp = .ok r) : CLInv r := by
  by_cases he : w.pathExists fp = true
  · by_cases hf : w.isFile fp = true
    · cases hr : w.readFile fp with
      | none =>
        simp only [serveFile, he, hf, hr] at h
        simp at h
      | some content =>
        simp only [serveFile, he, hf, hr] at h
        simp at h
        subst h
        exact clinv_addCachingHeaders w _ fp (clinv_file w.now .Ok content _)
    · simp only [serveFile, he, hf] at h
      simp at h
      subst h
      exact clinv_error w.now .Forbidden _
  · simp only [serveFile, he] at h
    simp at h
    subst h
    exact clinv_error w.now .NotFound _

theorem clinv_generateDirectoryListing (w : World) (dp up : Str) (r : HttpResponse)
    (h : generateDirectoryListing w dp up = .ok r) : CLInv r := by
  cases hd : w.readDir dp with
  | none => simp only [generateDirectoryListing, hd] at h; simp at h
  | some entries =>
    simp only [generateDirectoryListing, hd] at h
    simp at h
    subst h
    exact clinv_html w.now .Ok _

theorem clinv_serveDirectory (w : World) (dp : Str) (idx : Option Str)
    (allow : Bool) (up : Str) (r : HttpResponse)
    (h : serveDirectory w dp idx allow up = .ok r) : CLInv r := by
  simp only [serveDirectory] at h
  by_cases hex : (w.pathExists dp = true ∧ w.isDir dp = true)
  · rw [if_neg (by simpa using hex)] at h
    cases hhit : (match idx with
      | some index =>
        if w.pathExists (pathPush dp index) = true ∧ w.isFile (pathPush dp index) = true then
          some (pathPush dp index)
        else none
      | none => none) with
    | some ip =>
      rw [hhit] at h
      exact clinv_serveFile w ip r h
    | none =>
      rw [hhit] at h
      cases hal : allow with
      | true =>
        rw [hal] at h
        simp only [if_true] at h
        exact clinv_generateDirectoryListing w dp up r h
      | false =>
        rw [hal] at h
        simp at h
        subst h
        exact clinv_error w.now .Forbidden _
  · rw [if_pos (by simpa using hex)] at h
    simp at h
    subst h
    exact clinv_error w.now .NotFound _

theorem hdrOk_cgiHeaderLine (w : World) (acc : HttpResponse × Bool) (line : Str)
    (h : HdrOk acc.1.headers) : HdrOk (cgiHeaderLine w acc line).1.headers := by
  obtain ⟨response, ctSet⟩ := acc
  by_cases h0 : strTrim line = []
  · simpa [cgiHeaderLine, h0] using h
  · cases hc : charIndexOf ':' line with
    | none => simpa [cgiHeaderLine, h0, hc] using h
    | some colonPos =>
      simp only [cgiHeaderLine, if_neg h0, hc]
      by_cases h1 : strLower (strTrim (line.take colonPos)) = ("content-type".toList)
      · rw [if_pos h1]
        exact hdrOk_addHeader _ _ _ h
      · rw [if_neg h1]
        by_cases h2 : strLower (strTrim (line.take colonPos)) = ("status".toList)
        · rw [if_pos h2]
          cases hs : charIndexOf ' ' (strTrim (line.drop (colonPos + 1))) with
          | none => simpa [hs] using h
          | some spacePos =>
            cases hp : parseU16 ((strTrim (line.drop (colonPos + 1))).take spacePos) with
            | none => simpa [hs, hp] using h
            | some code => simpa [hs, hp] using hdrOk_new w.now (statusFromCode code)
        · rw [if_neg h2]
          by_cases h3 : strLower (strTrim (line.take colonPos)) = ("location".toList)
          · rw [if_pos h3]
            exact hdrOk_addHeader _ _ _ h
          · rw [if_neg h3]
            exact hdrOk_addHeader _ _ _ h

theorem hdrOk_cgiFold (w : World) (lines : List Str) :
    ∀ acc : HttpResponse × Bool, HdrOk acc.1.headers →
      HdrOk ((lines.foldl (cgiHeaderLine w) acc).1).headers := by
  induction lines with
  | nil => intro acc h; exact h
  | cons line rest ih =>
    intro acc h
    exact ih (cgiHeaderLine w acc line) (hdrOk_cgiHeaderLine w acc line h)

theorem clinv_parseCgiOutput (w : World) (out : Str) (r : HttpResponse)
    (h : parseCgiOutput w out = .ok r) : CLInv r := by
  simp only [parseCgiOutput] at h
  cases hf1 : findSeq out ("\r\n\r\n".toList) with
  | some pos =>
    rw [hf1] at h
    simp only [] at h
    set parsed := (strLines (out.take (pos + 4 - 2))).foldl (cgiHeaderLine w)
      (HttpResponse.new w.now .Ok, false) with hparsed
    have hok : HdrOk parsed.1.headers :=
      hdrOk_cgiFold w _ _ (hdrOk_new w.now .Ok)
    by_cases hct : parsed.2 = true
    · simp only [← hparsed, hct] at h
      simp at h
      subst h
      exact clinv_setBodyString _ _ hok
    · simp only [← hparsed, eq_false_of_ne_true hct] at h
      simp at h
      subst h
      exact clinv_setBodyString _ _ (hdrOk_addHeader _ _ _ hok)
  | none =>
    rw [hf1] at h
    cases hf2 : findSeq out ("\n\n".toList) with
    | some pos =>
      rw [hf2] at h
      set parsed := (strLines (out.take (pos + 2 - 2))).foldl (cgiHeaderLine w)
        (HttpResponse.new w.now .Ok, false) with hparsed
      have hok : HdrOk parsed.1.headers :=
        hdrOk_cgiFold w _ _ (hdrOk_new w.now .Ok)
      by_cases hct : parsed.2 = true
      · simp only [← hparsed, hct] at h
        simp at h
        subst h
        exact clinv_setBodyString _ _ hok
      · simp only [← hparsed, eq_false_of_ne_true hct] at h
        simp at h
        subst h
        exact clinv_setBodyString _ _ (hdrOk_addHeader _ _ _ hok)
    | none =>
      rw [hf2] at h
      simp at h
      subst h
      exact clinv_html w.now .Ok out

theorem clinv_executeScript (w : World) (i sp : Str) (b : Bytes) (r : HttpResponse)
    (h : executeScript w i sp b = .ok r) : CLInv r := by
  simp only [executeScript] at h
  cases hr : w.cgiRun i sp b with
  | err e => rw [hr] at h; simp at h
  | nonZeroExit =>
    rw [hr] at h
    simp at h
    subst h
    exact clinv_error w.now .InternalServerError _
  | success stdout =>
    rw [hr] at h
    exact clinv_parseCgiOutput w stdout r h

theorem clinv_cgiExecute (w : World) (req : HttpRequest) (route : RouteConfig)
    (sp : Str) (r : HttpResponse) (h : cgiExecute w req route sp = .ok r) :
    CLInv r := by
  simp only [cgiExecute] at h
  by_cases he : w.pathExists sp = true
  · simp only [he] at h
    cases hc : route.cgi with
    | none => rw [hc] at h; simp at h
    | some interp =>
      rw [hc] at h
      simp only [] at h
      exact clinv_executeScript w interp sp req.body r (by simpa using h)
  · simp only [he] at h
    simp at h
    subst h
    exact clinv_error w.now .NotFound _

theorem clinv_handleCgi (w : World) (cfg : Config) (req : HttpRequest)
    (route : RouteConfig) (r : HttpResponse) (h : handleCgi w cfg req route = .ok r) :
    CLInv r := by
  cases hroot : route.root with
  | none => simp [handleCgi, hroot] at h
  | some root =>
    cases hres : resolvePath w root req.path route.path with
    | error e => simp [handleCgi, hroot, hres] at h
    | ok sp =>
      by_cases he : w.pathExists sp = true
      · by_cases hf : w.isFile sp = true
        · cases hex : cgiExecute w req route sp with
          | ok r0 =>
            simp [handleCgi, hroot, hres, he, hf, hex] at h
            subst h
            exact clinv_cgiExecute w req route sp r0 hex
          | error e =>
            simp [handleCgi, hroot, hres, he, hf, hex] at h
            subst h
            exact clinv_generateErrorResponse _ w .InternalServerError _
        · simp [handleCgi, hroot, hres, he, hf] at h
          subst h
          exact clinv_generateErrorResponse _ w .Forbidden _
      · simp [handleCgi, hroot, hres, he] at h
        subst h
        exact clinv_generateErrorResponse _ w .NotFound _

theorem clinv_handleGet (w : World) (cfg : Config) (req : HttpRequest)
    (route : RouteConfig) (r : HttpResponse) (h : handleGet w cfg req route = .ok r) :
    CLInv r := by
  cases hredir : route.redirect with
  | some url =>
    simp [handleGet, hredir] at h
    subst h
    exact clinv_redirect w.now url false
  | none =>
    by_cases hcgi : route.cgi.isSome = true
    · simp only [handleGet, hredir, hcgi, if_true] at h
      exact clinv_handleCgi w cfg req route r h
    · cases hroot : route.root with
      | none => simp [handleGet, hredir, hcgi, hroot] at h
      | some root =>
        cases hres : resolvePath w root req.path route.path with
        | error e => simp [handleGet, hredir, hcgi, hroot, hres] at h
        | ok fp =>
          by_cases he : w.pathExists fp = true
          · by_cases hd : w.isDir fp = true
            · simp only [handleGet, hredir, hcgi, hroot, hres, he, hd,
                Bool.false_eq_true, if_false, not_true, reduceIte] at h
              exact clinv_serveDirectory w fp route.index route.directory_listing
                req.path r h
            · simp only [handleGet, hredir, hcgi, hroot, hres, he, hd,
                Bool.false_eq_true, if_false, not_true, reduceIte] at h
              exact clinv_serveFile w fp r h
          · simp [handleGet, hredir, hcgi, hroot, hres, he] at h
            subst h
            exact clinv_generateErrorResponse _ w .NotFound _

theorem clinv_handleFileUpload (w : World) (req : HttpRequest) (route : RouteConfig)
    (r : HttpResponse) (h : handleFileUpload w req route = .ok r) : CLInv r := by
  cases hroot : route.root with
  | none => simp [handleFileUpload, hroot] at h
  | some up =>
    simp only [handleFileUpload, hroot] at h
    split at h
    · simp only [Except.ok.injEq] at h
      subst h
      exact clinv_text w.now .Created _
    · simp at h

theorem clinv_handlePost (w : World) (cfg : Config) (req : HttpRequest)
    (route : RouteConfig) (r : HttpResponse) (h : handlePost w cfg req route = .ok r) :
    CLInv r := by
  by_cases hcgi : route.cgi.isSome = true
  · simp only [handlePost, hcgi, if_true] at h
    exact clinv_handleCgi w cfg req route r h
  · by_cases hup : route.upload_enabled = true
    · simp only [handlePost, hcgi, hup, Bool.false_eq_true, if_false, if_true] at h
      exact clinv_handleFileUpload w req route r h
    · simp [handlePost, hcgi, hup] at h
      subst h
      exact clinv_text w.now .Ok _

theorem clinv_handleDelete (w : World) (cfg : Config) (req : HttpRequest)
    (route : RouteConfig) (r : HttpResponse) (h : handleDelete w cfg req route = .ok r) :
    CLInv r := by
  cases hroot : route.root with
  | none => simp [handleDelete, hroot] at h
  | some root =>
    cases hres : resolvePath w root req.path route.path with
    | error e => simp [handleDelete, hroot, hres] at h
    | ok fp =>
      by_cases he : w.pathExists fp = true
      · by_cases hup : route.upload_enabled = true
        · by_cases hrem : w.removeOk fp = true
          · simp [handleDelete, hroot, hres, he, hup, hrem] at h
            subst h
            exact clinv_text w.now .NoContent _
          · simp [handleDelete, hroot, hres, he, hup, hrem] at h
            subst h
            exact clinv_generateErrorResponse _ w .InternalServerError _
        · simp [handleDelete, hroot, hres, he, hup] at h
          subst h
          exact clinv_generateErrorResponse _ w .Forbidden _
      · simp [handleDelete, hroot, hres, he] at h
        subst h
        exact clinv_generateErrorResponse _ w .NotFound _

theorem clinv_head_fix (r : HttpResponse) (h : HdrOk r.headers) :
    CLInv (({ r with body := [] } : HttpResponse).addHeader
      ("Content-Length".toList) ("0".toList)) := by
  constructor
  · exact countKey_mapInsert_self r.headers _ _ h
  · exact mapFind_mapInsert_self r.headers _ _

theorem clinv_handleHead (w : World) (cfg : Config) (req : HttpRequest)
    (route : RouteConfig) (r : HttpResponse) (h : handleHead w cfg req route = .ok r) :
    CLInv r := by
  cases hg : handleGet w cfg req route with
  | error e => simp [handleHead, hg] at h
  | ok r0 =>
    simp [handleHead, hg] at h
    subst h
    exact clinv_head_fix r0 (clinv_hdrOk r0 (clinv_handleGet w cfg req route r0 hg))

theorem clinv_handleRequestPostSize (w : World) (cfg : Config) (req : HttpRequest)
    (route : RouteConfig) (r : HttpResponse)
    (h : handleRequestPostSize w cfg req route = .ok r) : CLInv r := by
  simp only [handleRequestPostSize] at h
  split at h
  · simp only [Except.ok.injEq] at h
    subst h
    exact clinv_generateErrorResponse _ w .MethodNotAllowed _
  · split at h
    · exact clinv_handleGet w cfg req route r h
    · exact clinv_handlePost w cfg req route r h
    · exact clinv_handleDelete w cfg req route r h
    · exact clinv_handleHead w cfg req route r h
    · simp only [Except.ok.injEq] at h
      subst h
      exact clinv_generateErrorResponse _ w .MethodNotAllowed _

theorem clinv_handleRequest (w : World) (cfg : Config) (req : HttpRequest)
    (r : HttpResponse) (h : handleRequest w cfg req = .ok r) : CLInv r := by
  simp only [handleRequest] at h
  split at h
  · simp at h
  · split at h
    · simp only [Except.ok.injEq] at h
      subst h
      exact clinv_generateErrorResponse _ w .RequestEntityTooLarge _
    · exact clinv_handleRequestPostSize w cfg req _ r h

/-- The responses the server writes to a connection: every
`process_http_request` result, and the `BadRequest` parse-error answer. -/
inductive Emitted (w : World) (cfg : Config) : HttpResponse → Prop
  | process (req : HttpRequest) : Emitted w cfg (processHttpRequest w cfg req)
  | badRequest : Emitted w cfg (badRequestResponse w cfg)

/-- C6: (amended) every emitted response carries exactly one header whose
name is exactly `Content-Length`, and its value is the decimal byte length
of the response body.  (Case-insensitively the count can be two: a CGI
script header in a different capitalization survives alongside it — see the
counterexample.) -/
theorem emitted_content_length_exact (w : World) (cfg : Config) (r : HttpResponse)
    (h : Emitted w cfg r) :
    countKey r.headers ("Content-Length".toList) = 1 ∧
      mapFind r.headers ("Content-Length".toList) = some (natToStr r.body.length) := by
  cases h with
  | process req =>
    have : CLInv (processHttpRequest w cfg req) := by
      simp only [processHttpRequest]
      cases hh : handleRequest w cfg req with
      | ok r0 => exact clinv_setKeepAlive _ _ (clinv_handleRequest w cfg req r0 hh)
      | error e =>
        exact clinv_setKeepAlive _ _ (clinv_generateErrorResponse _ w .InternalServerError _)
    exact this
  | badRequest =>
    exact clinv_setKeepAlive _ false (clinv_generateErrorResponse _ w .BadRequest _)

/-- A CGI route under `/cgi/`. -/
def routeCgi : RouteConfig :=
  { path := "/cgi/".toList
    methods := ["GET".toList]
    redirect := none
    root := some ("www".toList)
    index := none
    cgi := some ("python3".toList)
    directory_listing := false
    upload_enabled := false }

/-- A config whose only binding has just the CGI route. -/
def cfgCgi : Config :=
  { servers := [{ demoServer with routes := [routeCgi] }] }

/-- A world with one CGI script whose output smuggles a lowercase
`content-length` header. -/
def c6World : World :=
  { emptyWorld with
    canonicalize := fun p =>
      if p = "www".toList then some ("/srv/www".toList)
      else if p = "www/x.py".toList then some ("/srv/www/x.py".toList)
      else none
    pathExists := fun p => p = "www/x.py".toList
    isFile := fun p => p = "www/x.py".toList
    cgiRun := fun _ _ _ => .success ("content-length: 999\n\nhello".toList) }

/-- A GET request for the CGI script. -/
def reqCgi : HttpRequest :=
  { HttpRequest.new with path := "/cgi/x.py".toList }

/-- C6 counterexample: this emitted response carries TWO content-length
headers (case-insensitively): the script's `content-length: 999` is passed
through next to the server's own `Content-Length: 5`, refuting "exactly
one Content-Length header ... equals the body length" on the wire. -/
theorem duplicate_content_length_counterexample :
    ((processHttpRequest c6World cfgCgi reqCgi).headers.filter
        (fun p => strLower p.1 = "content-length".toList)).length = 2 ∧
      ¬ (((processHttpRequest c6World cfgCgi reqCgi).headers.filter
        (fun p => strLower p.1 = "content-length".toList)).length = 1) := by
  refine ⟨by decide, by decide⟩

/-- C6 witness: the exact-name Content-Length of the same emitted response
is unique and valued at the body length. -/
theorem emitted_content_length_exact_witness :
    countKey (processHttpRequest c6World cfgCgi reqCgi).headers
        ("Content-Length".toList) = 1 ∧
      mapFind (processHttpRequest c6World cfgCgi reqCgi).headers
          ("Content-Length".toList) =
        some (natToStr (processHttpRequest c6World cfgCgi reqCgi).body.length) :=
  emitted_content_length_exact c6World cfgCgi _ (Emitted.process reqCgi)

end Localhost










